import Mathlib

/-!
Temperature based fire alarm: keypad input and periodic monitoring.

A shallow embedding of `src/main.cpp`: the four column interrupt handlers, the row
multiplexer `keypad_cycle`, the three threshold entry dialogs, the display-refresh task and the
threshold-check task.

Conventions of the embedding.
* The globals of `main.cpp` are the fields of `Globals`; a C function that mutates them is a
  function `Globals → Globals`.
* `int` variables are `Int` (no arithmetic here leaves the 32 bit range), the output data
  register `GPIOD->ODR` is a `Nat`, `float` variables are the rational numbers they denote.
* `wait_us` delays have no effect on the globals and are left out of the state functions; they
  are recorded in the effect traces of the periodic tasks.
* The entry dialogs busy-wait on the key latch. An input is the list of key presses that reach
  the latch, each given by the row index in force when the column edge fires and by the column.
  Each press is followed by one iteration of the polling loop; the idle iterations in between
  only advance `row` and rewrite the register. The `lcd` calls of the dialogs write to the
  display only and are left out.
* `std::stof` gives the decimal value of the numeral rounded to the nearest `float`
  (IEEE 754 binary32, ties to even), the value that line 733 stores in `temperature_threshold`.
-/

namespace FireAlarm

/-! ## Globals -/

/-- The global variables of `main.cpp` (lines 102 to 114) and the port D output data register. -/
structure Globals where
  row : Int
  temperature_threshold : ℚ
  humidity_threshold : Int
  current_fahrenheit : ℚ
  current_celsius : Int
  current_humidity : Int
  key : String
  to_print : String
  is_key_pressed : Bool
  flag_celsius : Bool
  flag_decimal_point : Bool
  flag_threshold : Bool
  odr : Nat
deriving DecidableEq, Repr

/-- The initial values of the globals as declared in `main.cpp`; the register starts at `odr`. -/
def Globals.boot (odr : Nat) : Globals :=
  { row := 0, temperature_threshold := 0, humidity_threshold := 0, current_fahrenheit := 0,
    current_celsius := 0, current_humidity := 0, key := "", to_print := "",
    is_key_pressed := false, flag_celsius := false, flag_decimal_point := false,
    flag_threshold := false, odr := odr }

/-- State in which `main` calls `set_celsius_threshold`: key C was consumed at the unit prompt. -/
def Globals.unitC : Globals := { Globals.boot 0 with flag_celsius := true }

/-- State in which `main` calls `set_fahrenheit_threshold`: key B was consumed at the unit
prompt. -/
def Globals.unitB : Globals := { Globals.boot 0 with flag_threshold := true }

/-! ## Column interrupt handlers -/

/-- Handler of the rising edge of column 1 (`main.cpp` lines 482 to 508). -/
def col1_isr_handler (g : Globals) : Globals :=
  if g.row = 0 then { g with is_key_pressed := true, key := "1" }
  else if g.row = 1 then { g with is_key_pressed := true, key := "4" }
  else if g.row = 2 then { g with is_key_pressed := true, key := "7" }
  else if g.row = 3 then
    let g := { g with is_key_pressed := true }
    let g := if g.flag_threshold then { g with flag_decimal_point := true } else g
    { g with key := "*" }
  else g

/-- Handler of the rising edge of column 2 (`main.cpp` lines 511 to 535). -/
def col2_isr_handler (g : Globals) : Globals :=
  if g.row = 0 then { g with is_key_pressed := true, key := "2" }
  else if g.row = 1 then { g with is_key_pressed := true, key := "5" }
  else if g.row = 2 then { g with is_key_pressed := true, key := "8" }
  else if g.row = 3 then { g with is_key_pressed := true, key := "0" }
  else g

/-- Handler of the rising edge of column 3 (`main.cpp` lines 538 to 562). -/
def col3_isr_handler (g : Globals) : Globals :=
  if g.row = 0 then { g with is_key_pressed := true, key := "3" }
  else if g.row = 1 then { g with is_key_pressed := true, key := "6" }
  else if g.row = 2 then { g with is_key_pressed := true, key := "9" }
  else if g.row = 3 then { g with is_key_pressed := true, key := "#" }
  else g

/-- Handler of the rising edge of column 4 (`main.cpp` lines 565 to 586). -/
def col4_isr_handler (g : Globals) : Globals :=
  if g.row = 0 then { g with is_key_pressed := true, key := "A" }
  else if g.row = 1 then { g with is_key_pressed := true, key := "B" }
  else if g.row = 2 then { g with is_key_pressed := true, key := "C" }
  else if g.row = 3 then { g with is_key_pressed := true, key := "D" }
  else g

/-- The four `InterruptIn` objects `col1` to `col4` of `main.cpp` (lines 67 to 70). -/
inductive Column where
  | col1
  | col2
  | col3
  | col4
deriving DecidableEq, Repr

/-- The handler attached to the rising edge of each column in `main` (lines 134 to 143). -/
def Column.rise : Column → Globals → Globals
  | .col1 => col1_isr_handler
  | .col2 => col2_isr_handler
  | .col3 => col3_isr_handler
  | .col4 => col4_isr_handler

/-- The lookup table of the keypad as the specification words it: row 0 is 1 2 3 A, row 1 is
4 5 6 B, row 2 is 7 8 9 C, row 3 is * 0 # D. -/
def keypad_table : Fin 4 → Column → String
  | 0, .col1 => "1" | 0, .col2 => "2" | 0, .col3 => "3" | 0, .col4 => "A"
  | 1, .col1 => "4" | 1, .col2 => "5" | 1, .col3 => "6" | 1, .col4 => "B"
  | 2, .col1 => "7" | 2, .col2 => "8" | 2, .col3 => "9" | 2, .col4 => "C"
  | 3, .col1 => "*" | 3, .col2 => "0" | 3, .col3 => "#" | 3, .col4 => "D"

/-! ## Row multiplexer -/

/-- The 32 bit complement `~(m)` of a mask, as it is stored into the 32 bit register. -/
def mask_not (m : Nat) : Nat := 0xFFFFFFFF ^^^ m

/-- Row multiplexer (`main.cpp` lines 447 to 479): two writes of `GPIOD->ODR` chosen by `row`,
then `row += 1; row %= 4`. C's `%` truncates toward zero, which is `Int.tmod`. -/
def keypad_cycle (g : Globals) : Globals :=
  let g :=
    if g.row = 0 then
      let g := { g with odr := g.odr ||| 0x40 }
      { g with odr := g.odr &&& mask_not 0x38 }
    else if g.row = 1 then
      let g := { g with odr := g.odr ||| 0x20 }
      { g with odr := g.odr &&& mask_not 0x58 }
    else if g.row = 2 then
      let g := { g with odr := g.odr ||| 0x10 }
      { g with odr := g.odr &&& mask_not 0x68 }
    else if g.row = 3 then
      let g := { g with odr := g.odr ||| 0x8 }
      { g with odr := g.odr &&& mask_not 0x70 }
    else g
  let g := { g with row := g.row + 1 }
  { g with row := Int.tmod g.row 4 }

/-- The row output bits of the register (bits 3 to 6, mask 0x78) that are set. -/
def active_row_bits (odr : Nat) : List Nat :=
  [3, 4, 5, 6].filter (fun i => odr.testBit i)

/-! ## Key presses -/

/-- One key press reaching the latch: the row index in force when the column edge fires, and
the column whose interrupt fires. -/
structure Press where
  row : Fin 4
  col : Column
deriving DecidableEq, Repr

/-- The interrupt of a key press: the column's handler runs with `row` at the press's row. -/
def Press.fire (p : Press) (g : Globals) : Globals :=
  p.col.rise { g with row := (p.row : Nat) }

/-- The symbol printed on the pressed key, read off the specification's table. -/
def Press.symbol (p : Press) : String := keypad_table p.row p.col

/-- The press of the key carrying digit `d` (0 to 9); larger `d` give key 9. -/
def Press.digit (d : Nat) : Press :=
  match d with
  | 0 => ⟨3, .col2⟩
  | 1 => ⟨0, .col1⟩
  | 2 => ⟨0, .col2⟩
  | 3 => ⟨0, .col3⟩
  | 4 => ⟨1, .col1⟩
  | 5 => ⟨1, .col2⟩
  | 6 => ⟨1, .col3⟩
  | 7 => ⟨2, .col1⟩
  | 8 => ⟨2, .col2⟩
  | _ => ⟨2, .col3⟩

/-- The press of the `*` key. -/
def Press.star : Press := ⟨3, .col1⟩

/-! ## String to number conversions of the C++ standard library -/

/-- The characters `isspace` accepts in the C locale. -/
def isspace (c : Char) : Bool :=
  c == ' ' || c == '\t' || c == '\n' || c == '\x0b' || c == '\x0c' || c == '\r'

/-- Value of a run of decimal digits, most significant first. -/
def decimal_value (ds : List Char) : Nat :=
  ds.foldl (fun n c => 10 * n + (c.toNat - 48)) 0

/-- Model of `std::stoi` in base 10: leading white space, an optional sign, then the longest
run of digits. `none` stands for the exception thrown when there is no digit
(`invalid_argument`) or the value does not fit a 32 bit `int` (`out_of_range`). -/
def stoi (s : String) : Option Int :=
  let cs := s.data.dropWhile isspace
  let signed : Bool × List Char :=
    match cs with
    | [] => (false, [])
    | c :: t => if c = '-' then (true, t) else if c = '+' then (false, t) else (false, c :: t)
  let ds := signed.2.takeWhile Char.isDigit
  if ds = [] then none
  else
    let v : Int := if signed.1 then -(decimal_value ds : Int) else (decimal_value ds : Int)
    if v < -2147483648 ∨ 2147483647 < v then none else some v

/-- Number of binary digits of `n`; the first argument bounds the recursion and `n` itself is
enough. -/
def bit_length : Nat → Nat → Nat
  | 0, _ => 0
  | fuel + 1, n => if n = 0 then 0 else bit_length fuel (n / 2) + 1

/-- The exponent `e` with `2 ^ e ≤ n / d < 2 ^ (e + 1)`, for positive `n` and `d`: the
difference of the bit lengths, or one less. -/
def float_exponent (n d : Nat) : Int :=
  let e0 : Int := (bit_length n n : Int) - (bit_length d d : Int)
  if (if 0 ≤ e0 then d * 2 ^ e0.toNat ≤ n else d ≤ n * 2 ^ (-e0).toNat) then e0 else e0 - 1

/-- The `float` (IEEE 754 binary32) nearest to the fraction `n / d`, ties to even: with `e` the
exponent of `n / d`, not below -126, the fraction is rounded to a multiple of `2 ^ (e - 23)`.
Values beyond the largest `float` are not treated apart. -/
def float_magnitude (n d : Nat) : ℚ :=
  if n = 0 then 0
  else
    let e : Int := if float_exponent n d < -126 then -126 else float_exponent n d
    let s : Int := e - 23
    let num : Nat := if 0 ≤ s then n else n * 2 ^ (-s).toNat
    let den : Nat := if 0 ≤ s then d * 2 ^ s.toNat else d
    let m0 : Nat := num / den
    let r : Nat := num % den
    let m : Nat := if den < 2 * r ∨ (2 * r = den ∧ m0 % 2 = 1) then m0 + 1 else m0
    if 0 ≤ s then ((m * 2 ^ s.toNat : Nat) : ℚ) else mkRat m (2 ^ (-s).toNat)

/-- Rounding of a rational to the nearest `float`, the sign kept. -/
def round_to_float (x : ℚ) : ℚ :=
  if x.num < 0 then -(float_magnitude x.num.natAbs x.den)
  else float_magnitude x.num.natAbs x.den

/-- Model of `std::stof` on decimal numerals: leading white space, an optional sign, digits, an
optional point followed by digits; the result is the decimal value rounded to the nearest
`float`. `none` stands for `invalid_argument` (no digit at all). Exponents, hexadecimal
numerals, `inf` and `nan` need letters and are not recognised, and the `out_of_range` exception
of numerals beyond the `float` range (39 digits or more) is not modelled. -/
def stof (s : String) : Option ℚ :=
  let cs := s.data.dropWhile isspace
  let signed : Bool × List Char :=
    match cs with
    | [] => (false, [])
    | c :: t => if c = '-' then (true, t) else if c = '+' then (false, t) else (false, c :: t)
  let ip := signed.2.takeWhile Char.isDigit
  let fp : List Char :=
    match signed.2.dropWhile Char.isDigit with
    | '.' :: t => t.takeWhile Char.isDigit
    | _ => []
  if ip = [] ∧ fp = [] then none
  else
    let v : ℚ := round_to_float (mkRat (decimal_value (ip ++ fp)) (10 ^ fp.length))
    some (if signed.1 then -v else v)

/-! ## Threshold entry dialogs -/

/-- Control state of an entry dialog. `polling` is the innermost `while (true)` loop, blocked
until a key is latched, with the locals `count` and the accumulator string; `returned` is the
procedure's return; `threw` is an exception of `stoi` or `stof`. The last component is a ghost
log of the strings handed to `stoi` or `stof` so far, oldest first. -/
inductive Dialog where
  | polling (g : Globals) (count : Int) (acc : String) (parsed : List String)
  | returned (g : Globals) (parsed : List String)
  | threw (parsed : List String)
deriving DecidableEq, Repr

/-- The globals at the procedure's return, if it has returned. -/
def Dialog.result : Dialog → Option Globals
  | .returned g _ => some g
  | _ => none

/-- The accumulator string, while the dialog is still collecting. -/
def Dialog.acc? : Dialog → Option String
  | .polling _ _ acc _ => some acc
  | _ => none

/-- The local `count`, while the dialog is still collecting. -/
def Dialog.count? : Dialog → Option Int
  | .polling _ count _ _ => some count
  | _ => none

/-- The strings handed to `stoi` or `stof` so far. -/
def Dialog.parsed : Dialog → List String
  | .polling _ _ _ parsed => parsed
  | .returned _ parsed => parsed
  | .threw parsed => parsed

/-- Remainder of `set_celsius_threshold` from the test of `while (count<2)` (line 611) on:
below 2 the procedure polls again; otherwise lines 646 to 659 convert and test the
accumulator. After a reset both loop tests (lines 608 and 611) hold, so the procedure polls
again. -/
def celsius_validate (g : Globals) (count : Int) (temperature : String)
    (parsed : List String) : Dialog :=
  if count < 2 then .polling g count temperature parsed
  else
    match stoi temperature with
    | none => .threw (parsed ++ [temperature])
    | some v =>
      let g := { g with temperature_threshold := (v : ℚ) }
      if g.temperature_threshold > 50 then .polling g 0 "" (parsed ++ [temperature])
      else .returned g (parsed ++ [temperature])

/-- One iteration of the polling loop of `set_celsius_threshold` (lines 614 to 627), and when
the key is taken, `count += 1` and what follows. -/
def celsius_poll (g : Globals) (count : Int) (temperature : String)
    (parsed : List String) : Dialog :=
  let g := keypad_cycle g
  if g.is_key_pressed && g.key != "A" && g.key != "B" && g.key != "C" && g.key != "D"
      && g.key != "#" && g.key != "*" then
    let g := { g with is_key_pressed := false }
    let temperature := temperature ++ g.key
    let g := { g with key := "" }
    let count := count + 1
    celsius_validate g count temperature parsed
  else .polling g count temperature parsed

/-- The Celsius dialog fed key presses: each press fires its interrupt, then the loop polls.
Presses that arrive after the return are not consumed. -/
def celsius_run : Dialog → List Press → Dialog
  | .polling g count temperature parsed, p :: ps =>
      celsius_run (celsius_poll (p.fire g) count temperature parsed) ps
  | d, _ => d

/-- Procedure `set_celsius_threshold` (`main.cpp` lines 591 to 661) run on the key presses `ps`. -/
def set_celsius_threshold (g : Globals) (ps : List Press) : Dialog :=
  if !g.flag_celsius then .returned g []
  else
    let g := { g with temperature_threshold := 100 }
    celsius_run (celsius_poll g 0 "" []) ps

/-- Remainder of `set_humidity_threshold` from the test of `while (count < 2)` (line 396) on:
below 2 the procedure polls again; otherwise lines 429 to 440 convert and test the
accumulator. After a reset both loop tests (lines 393 and 396) hold, so the procedure polls
again. -/
def humidity_validate (g : Globals) (count : Int) (humidity : String)
    (parsed : List String) : Dialog :=
  if count < 2 then .polling g count humidity parsed
  else
    match stoi humidity with
    | none => .threw (parsed ++ [humidity])
    | some v =>
      let g := { g with humidity_threshold := v }
      if g.humidity_threshold < 20 ∨ g.humidity_threshold > 80 then
        .polling g 0 "" (parsed ++ [humidity])
      else .returned g (parsed ++ [humidity])

/-- One iteration of the polling loop of `set_humidity_threshold` (lines 399 to 412), and when
the key is taken, `count += 1` and what follows. -/
def humidity_poll (g : Globals) (count : Int) (humidity : String)
    (parsed : List String) : Dialog :=
  let g := keypad_cycle g
  if g.is_key_pressed && g.key != "A" && g.key != "B" && g.key != "C" && g.key != "D"
      && g.key != "*" && g.key != "#" then
    let g := { g with is_key_pressed := false }
    let humidity := humidity ++ g.key
    let g := { g with key := "" }
    let count := count + 1
    humidity_validate g count humidity parsed
  else .polling g count humidity parsed

/-- The humidity dialog fed key presses: each press fires its interrupt, then the loop polls. -/
def humidity_run : Dialog → List Press → Dialog
  | .polling g count humidity parsed, p :: ps =>
      humidity_run (humidity_poll (p.fire g) count humidity parsed) ps
  | d, _ => d

/-- Procedure `set_humidity_threshold` (`main.cpp` lines 378 to 442) run on the key presses `ps`. -/
def set_humidity_threshold (g : Globals) (ps : List Press) : Dialog :=
  let g := { g with humidity_threshold := 0 }
  humidity_run (humidity_poll g 0 "" []) ps

/-- Remainder of `set_fahrenheit_threshold` from the test of `while (count<5)` (line 686) on:
below 5 the procedure polls again; otherwise lines 733 to 743 convert and test the
accumulator. After a reset both loop tests (lines 683 and 686) hold, so the procedure polls
again. -/
def fahrenheit_validate (g : Globals) (count : Int) (temperature : String)
    (parsed : List String) : Dialog :=
  if count < 5 then .polling g count temperature parsed
  else
    match stof temperature with
    | none => .threw (parsed ++ [temperature])
    | some v =>
      let g := { g with temperature_threshold := v }
      if g.temperature_threshold > 122 then .polling g 0 "" (parsed ++ [temperature])
      else .returned g (parsed ++ [temperature])

/-- One iteration of the polling loop of `set_fahrenheit_threshold` (lines 689 to 715) and what
follows when the key is taken: `*` appends a point and sets `count = 3` if
`flag_decimal_point` is set and is dropped otherwise; any other key is appended and counted. -/
def fahrenheit_poll (g : Globals) (count : Int) (temperature : String)
    (parsed : List String) : Dialog :=
  let g := keypad_cycle g
  if g.is_key_pressed && g.key != "A" && g.key != "B" && g.key != "C" && g.key != "D"
      && g.key != "#" then
    let g := { g with is_key_pressed := false }
    if g.key == "*" then
      if g.flag_decimal_point then
        let temperature := temperature ++ "."
        let g := { g with flag_decimal_point := false }
        let g := { g with flag_threshold := false }
        let count := 3
        let g := { g with key := "" }
        fahrenheit_validate g count temperature parsed
      else
        let g := { g with key := "" }
        fahrenheit_validate g count temperature parsed
    else
      let temperature := temperature ++ g.key
      let count := count + 1
      let g := { g with key := "" }
      fahrenheit_validate g count temperature parsed
  else .polling g count temperature parsed

/-- The Fahrenheit dialog fed key presses: each press fires its interrupt, then the loop polls. -/
def fahrenheit_run : Dialog → List Press → Dialog
  | .polling g count temperature parsed, p :: ps =>
      fahrenheit_run (fahrenheit_poll (p.fire g) count temperature parsed) ps
  | d, _ => d

/-- Procedure `set_fahrenheit_threshold` (`main.cpp` lines 666 to 745) run on the key presses
`ps`. -/
def set_fahrenheit_threshold (g : Globals) (ps : List Press) : Dialog :=
  if g.flag_celsius then .returned g []
  else
    let g := { g with temperature_threshold := 123 }
    fahrenheit_run (fahrenheit_poll g 0 "" []) ps

/-! ## Threshold-check task -/

/-- The observable operations of the periodic tasks on the mutex, the alarm LED, the buzzer,
the watchdog, the sensor and the display, in program order. -/
inductive Effect where
  | mutex_lock
  | mutex_unlock
  | siren_led (v : Int)
  | buzzer_period (seconds : ℚ)
  | buzzer_write (duty : ℚ)
  | wait_us (us : Nat)
  | watchdog_kick
  | sensor_read
  | lcd_clear
  | lcd_print (text : String)
  | lcd_setCursor (col : Nat) (line : Nat)
deriving DecidableEq, Repr

/-- The body of both `for` loops of `siren` for one value of `i`. -/
def siren_tone (i : Nat) : List Effect :=
  [.buzzer_period (mkRat 1 i), .buzzer_write (mkRat 1 2), .wait_us 10000]

/-- Procedure `siren` (`main.cpp` lines 359 to 375): LED on, a sweep with `i` from 400 up to
599, a pause, a sweep with `i` from 600 down to 401, then a watchdog kick. -/
def siren : List Effect :=
  [.siren_led 1]
    ++ (((List.range 200).map (fun n => 400 + n)).map siren_tone).flatten
    ++ [.wait_us 2000000]
    ++ (((List.range 200).map (fun n => 600 - n)).map siren_tone).flatten
    ++ [.watchdog_kick]

/-- Procedure `check_sensor_data` (`main.cpp` lines 317 to 356) as the trace of its effects; it
writes no global. `current_celsius` is converted to `float` for the comparison. -/
def check_sensor_data (g : Globals) : List Effect :=
  [.mutex_lock]
    ++ (if g.flag_celsius then
          if (g.current_celsius : ℚ) > g.temperature_threshold
              ∨ g.current_humidity < g.humidity_threshold then
            siren
          else [.buzzer_write 0, .siren_led 0]
        else
          if g.current_fahrenheit > g.temperature_threshold
              ∨ g.current_humidity < g.humidity_threshold then
            siren
          else [.buzzer_write 0, .siren_led 0])
    ++ [.mutex_unlock, .watchdog_kick]

/-- The alarm condition as the specification words it: the current temperature in the selected
unit is strictly above the threshold, or the humidity strictly below its threshold. -/
def alarm_condition (g : Globals) : Prop :=
  (if g.flag_celsius then (g.current_celsius : ℚ) else g.current_fahrenheit)
      > g.temperature_threshold
    ∨ g.current_humidity < g.humidity_threshold

instance (g : Globals) : Decidable (alarm_condition g) :=
  inferInstanceAs (Decidable (_ ∨ _))

/-- The writes that drive the alarm actuator: the LED and the buzzer. -/
def Effect.is_actuator : Effect → Bool
  | .siren_led _ => true
  | .buzzer_period _ => true
  | .buzzer_write _ => true
  | _ => false

/-- The effects of a trace issued while the mutex is held (`held` tells whether it is held at
the start of the trace). -/
def while_locked : Bool → List Effect → List Effect
  | _, [] => []
  | _, .mutex_lock :: es => while_locked true es
  | _, .mutex_unlock :: es => while_locked false es
  | held, e :: es => if held then e :: while_locked held es else while_locked held es

/-- The effects of a trace issued while the mutex is not held. -/
def while_unlocked : Bool → List Effect → List Effect
  | _, [] => []
  | _, .mutex_lock :: es => while_unlocked true es
  | _, .mutex_unlock :: es => while_unlocked false es
  | held, e :: es => if held then while_unlocked held es else e :: while_unlocked held es

/-- The monitor state of the specification's alarm example: Celsius unit, 40 degrees, 30 percent
humidity, thresholds 35 degrees and 50 percent. -/
def Globals.hot : Globals :=
  { Globals.boot 0 with flag_celsius := true, current_celsius := 40, current_humidity := 30,
                        temperature_threshold := 35, humidity_threshold := 50 }

/-- The monitor state of the specification's silent example: Celsius unit, 20 degrees, 60
percent humidity, thresholds 35 degrees and 50 percent. -/
def Globals.calm : Globals :=
  { Globals.boot 0 with flag_celsius := true, current_celsius := 20, current_humidity := 60,
                        temperature_threshold := 35, humidity_threshold := 50 }

/-! ## Display-refresh task -/

/-- The values the sensor getters return after `sensor.read()`: `getFahrenheit`, `getCelsius`
and `getHumidity` of `DHT11.h`. -/
structure Reading where
  fahrenheit : ℚ
  celsius : Int
  humidity : Int
deriving DecidableEq, Repr

/-- Six decimal digits of a number below one million, with leading zeros. -/
def six_digits (n : Nat) : String :=
  String.mk (List.replicate (6 - (toString n).length) '0') ++ toString n

/-- Model of `std::to_string(float)`, the `%f` format: an optional minus sign, the integer
part, a point and six decimals, the value rounded to the nearest millionth (ties to even). -/
def to_string_float (x : ℚ) : String :=
  let scaled : ℚ := |x| * 1000000
  let below : Nat := (Rat.floor scaled).toNat
  let rest : ℚ := scaled - (below : ℚ)
  let n : Nat :=
    if mkRat 1 2 < rest ∨ (rest = mkRat 1 2 ∧ below % 2 = 1) then below + 1 else below
  (if x < 0 then "-" else "") ++ toString (n / 1000000) ++ "." ++ six_digits (n % 1000000)

/-- The global `degree`, `(char)223`, as a one character string. -/
def degree : String := String.singleton (Char.ofNat 223)

/-- The smoothing test of `print_sensor_data` on the Celsius reading (line 266); both sides
are converted to `double`. -/
def celsius_smoothing_test (current_celsius temp_c : Int) : Prop :=
  (temp_c : ℚ) ≤ (current_celsius : ℚ) + 2 ∨ (temp_c : ℚ) ≥ (current_celsius : ℚ) - 2

instance (current_celsius temp_c : Int) :
    Decidable (celsius_smoothing_test current_celsius temp_c) :=
  inferInstanceAs (Decidable (_ ∨ _))

/-- Procedure `print_sensor_data` (`main.cpp` lines 254 to 310) run on the reading the sensor
returns: the globals it leaves and the trace of its effects. -/
def print_sensor_data (g : Globals) (r : Reading) : Globals × List Effect :=
  let temp_f := r.fahrenheit
  let temp_c := r.celsius
  let g :=
    if temp_f ≤ g.current_fahrenheit + 2 ∨ temp_f ≥ g.current_fahrenheit - 2 then
      { g with current_fahrenheit := temp_f }
    else g
  let g :=
    if celsius_smoothing_test g.current_celsius temp_c then { g with current_celsius := temp_c }
    else g
  let g := { g with current_humidity := r.humidity }
  let g :=
    if g.flag_celsius then
      { g with to_print := "Temp.: " ++ toString g.current_celsius ++ degree ++ "C" }
    else
      { g with to_print := "Temp.: " ++ to_string_float g.current_fahrenheit ++ degree ++ "F" }
  let temperature_line := g.to_print
  let g := { g with to_print := "Humidity: " ++ toString g.current_humidity ++ "%" }
  (g, [.mutex_lock, .sensor_read, .lcd_clear, .lcd_print temperature_line, .lcd_setCursor 0 1,
        .lcd_print g.to_print, .mutex_unlock, .watchdog_kick])

/-- The display operations of a trace. -/
def Effect.is_display : Effect → Bool
  | .lcd_clear => true
  | .lcd_print _ => true
  | .lcd_setCursor _ _ => true
  | _ => false

/-! ## Row lines -/

/-- The register bit of the row line that `keypad_cycle` drives when `row` is `k`: PD_6, PD_5,
PD_4, PD_3 for `k` = 0, 1, 2, 3 (the masks 0x40, 0x20, 0x10, 0x8 of lines 452 to 473). -/
def row_line : Fin 4 → Nat
  | 0 => 6
  | 1 => 5
  | 2 => 4
  | 3 => 3

/-- State of `keypad_cycle` during its settle delay: the two register writes are done, `row`
is not yet incremented (lines 449 to 476). -/
def keypad_cycle_settle (g : Globals) : Globals :=
  if g.row = 0 then
    let g := { g with odr := g.odr ||| 0x40 }
    { g with odr := g.odr &&& mask_not 0x38 }
  else if g.row = 1 then
    let g := { g with odr := g.odr ||| 0x20 }
    { g with odr := g.odr &&& mask_not 0x58 }
  else if g.row = 2 then
    let g := { g with odr := g.odr ||| 0x10 }
    { g with odr := g.odr &&& mask_not 0x68 }
  else if g.row = 3 then
    let g := { g with odr := g.odr ||| 0x8 }
    { g with odr := g.odr &&& mask_not 0x70 }
  else g

/-- The globals of a dialog state, if the dialog has not thrown. -/
def Dialog.globals? : Dialog → Option Globals
  | .polling g _ _ _ => some g
  | .returned g _ => some g
  | .threw _ => none

/-! ## The entry dialogs as the specification describes them -/

/-- The digit a key symbol stands for, if it is one of `0` to `9`. -/
def digit_of_key (s : String) : Option Nat :=
  if s = "0" then some 0 else if s = "1" then some 1 else if s = "2" then some 2
  else if s = "3" then some 3 else if s = "4" then some 4 else if s = "5" then some 5
  else if s = "6" then some 6 else if s = "7" then some 7 else if s = "8" then some 8
  else if s = "9" then some 9 else none

/-- The digits among a sequence of key presses, the other keys dropped. -/
def digits_of (ps : List Press) : List Nat :=
  ps.filterMap (fun p => digit_of_key p.symbol)

/-- State of a two digit entry in the specification's terms: still collecting, with the digits
accumulated since the last reset, or accepted with a committed value. -/
inductive EntrySpec where
  | collecting (digits : List Nat)
  | accepted (value : Nat)
deriving DecidableEq, Repr

/-- The two digit entry of the specification: digits are taken in aligned pairs; a pair whose
value passes the range test is accepted; any other pair is rejected, the accumulator is
emptied and collection goes on with the next pair. -/
def pairs_spec (in_range : Nat → Bool) : List Nat → EntrySpec
  | d1 :: d2 :: rest =>
      if in_range (10 * d1 + d2) then .accepted (10 * d1 + d2) else pairs_spec in_range rest
  | ds => .collecting ds

/-- The accumulator string that holds the given digits. -/
def digit_string (ds : List Nat) : String :=
  String.mk (ds.map Nat.digitChar)

/-- A dialog state agrees with a state of the specification's two digit entry: while
collecting, `count` is the number of accumulated digits and the accumulator spells them; once
accepted, the procedure has returned with the committed value in the global read by `value`. -/
def Dialog.Matches {α : Type} [NatCast α] (value : Globals → α) : Dialog → EntrySpec → Prop
  | .polling _ count acc _, .collecting ds => count = (ds.length : Int) ∧ acc = digit_string ds
  | .returned g _, .accepted v => value g = (v : α)
  | _, _ => False

/-- Invariant of the Fahrenheit dialog. While polling: every string parsed so far has at most
7 characters, `count` is in [0,4], the accumulator holds digits and points only, and either it
has exactly `count` characters, or both decimal flags are cleared and it has at most
`count + 2` characters. After the return the committed threshold is in [0,122]. -/
def Dialog.FahrenheitInv : Dialog → Prop
  | .polling g count acc parsed =>
      (∀ s ∈ parsed, s.length ≤ 7) ∧ 0 ≤ count ∧ count ≤ 4 ∧
      (∀ ch ∈ acc.data, ch.isDigit = true ∨ ch = '.') ∧
      ((acc.length : Int) = count ∨
        (g.flag_threshold = false ∧ g.flag_decimal_point = false ∧
          (acc.length : Int) ≤ count + 2))
  | .returned g parsed =>
      (∀ s ∈ parsed, s.length ≤ 7) ∧
      0 ≤ g.temperature_threshold ∧ g.temperature_threshold ≤ 122
  | .threw parsed => ∀ s ∈ parsed, s.length ≤ 7

/-! ## Well-formed numerals -/

/-- A string of exactly two decimal digits. -/
def is_two_digits (s : String) : Bool :=
  decide (s.length = 2) && s.data.all Char.isDigit

/-- A non-negative decimal numeral: digits and points only, with at least one digit. -/
def is_numeral (s : String) : Bool :=
  s.data.all (fun ch => ch.isDigit || ch == '.') && s.data.any Char.isDigit

/-- Number of points in a string. -/
def points (s : String) : Nat := s.data.count '.'

/-- Number of points in a list of strings. -/
def total_points (l : List String) : Nat := (l.map points).sum

/-- Number of points a dialog has accepted so far: those of the strings already parsed and
those of the accumulator. -/
def Dialog.points_total : Dialog → Nat
  | .polling _ _ acc parsed => total_points parsed + points acc
  | .returned _ parsed => total_points parsed
  | .threw parsed => total_points parsed

/-- Tells whether `stoi` or `stof` has thrown. -/
def Dialog.has_thrown : Dialog → Bool
  | .threw _ => true
  | _ => false

/-- Invariant of the two digit dialogs: every string parsed so far spells two digits, the
accumulator spells the digits collected since the last reset, fewer than two, and `count` is
their number; no conversion has thrown. -/
def Dialog.TwoDigitInv : Dialog → Prop
  | .polling _ count acc parsed =>
      (∀ s ∈ parsed, ∃ d1 d2, d1 < 10 ∧ d2 < 10 ∧ s = digit_string [d1] ++ digit_string [d2]) ∧
      ∃ ds : List Nat, ds.length < 2 ∧ (∀ d ∈ ds, d < 10) ∧ count = (ds.length : Int) ∧
        acc = digit_string ds
  | .returned _ parsed =>
      ∀ s ∈ parsed, ∃ d1 d2, d1 < 10 ∧ d2 < 10 ∧ s = digit_string [d1] ++ digit_string [d2]
  | .threw _ => False

/-- Invariant of the Fahrenheit dialog on the numerals: every string parsed so far is a
numeral that `stof` converts, and no conversion has thrown. While polling, either the
accumulator holds `count` digits and no point, and if a point was parsed before both decimal
flags are cleared; or the accumulator holds digits, one point and `count - 3` digits, no point
was parsed before and both decimal flags are cleared. -/
def Dialog.NumeralInv : Dialog → Prop
  | .polling g count acc parsed =>
      (∀ s ∈ parsed, is_numeral s = true ∧ (stof s).isSome = true) ∧
      (((∀ ch ∈ acc.data, ch.isDigit = true) ∧ (acc.length : Int) = count ∧ count < 5 ∧
          (total_points parsed = 0 ∨
            (total_points parsed = 1 ∧ g.flag_threshold = false ∧
              g.flag_decimal_point = false))) ∨
        (∃ pre post : List Char, acc.data = pre ++ '.' :: post ∧
          (∀ ch ∈ pre, ch.isDigit = true) ∧ (∀ ch ∈ post, ch.isDigit = true) ∧
          (post.length : Int) + 3 = count ∧ count < 5 ∧ g.flag_threshold = false ∧
          g.flag_decimal_point = false ∧ total_points parsed = 0))
  | .returned _ parsed =>
      (∀ s ∈ parsed, is_numeral s = true ∧ (stof s).isSome = true) ∧ total_points parsed ≤ 1
  | .threw _ => False

/-! ## Theorems -/

/-! ### Column decoder -/

/-- C1: for every row index in [0,3] and every column, the column's handler run with that row
stores the entry of the fixed 4x4 table in `key` and sets `is_key_pressed`; and whatever the
row, no handler sets `is_key_pressed` to false: it sets it to true or writes nothing at all. -/
theorem C1_handlers_decode_table (g : Globals) (r : Fin 4) (c : Column) :
    (c.rise { g with row := (r : Nat) }).key = keypad_table r c ∧
    (c.rise { g with row := (r : Nat) }).is_key_pressed = true ∧
    ((c.rise g).is_key_pressed = true ∨ c.rise g = g) := by
  refine ⟨?_, ?_, ?_⟩
  · fin_cases r <;> cases c <;>
      simp [Column.rise, col1_isr_handler, col2_isr_handler, col3_isr_handler,
        col4_isr_handler, keypad_table]
  · fin_cases r <;> cases c <;>
      simp [Column.rise, col1_isr_handler, col2_isr_handler, col3_isr_handler,
        col4_isr_handler]
    split_ifs <;> rfl
  · cases c <;>
      simp only [Column.rise, col1_isr_handler, col2_isr_handler, col3_isr_handler,
        col4_isr_handler] <;>
      split_ifs <;> simp

/-! ### Row multiplexer -/

theorem row_bits_of_masked (odr m : Nat) (h : odr &&& 0x78 = m) :
    active_row_bits odr = active_row_bits m := by
  subst h
  simp only [active_row_bits]
  apply List.filter_congr
  intro i hi
  simp only [List.mem_cons, List.mem_singleton, List.not_mem_nil, or_false] at hi
  rw [Nat.testBit_land]
  rcases hi with rfl | rfl | rfl | rfl <;> simp +decide

theorem drive_row_masked (odr bit clear : Nat) (h1 : mask_not clear &&& 0x78 = bit)
    (h2 : bit &&& bit = bit) :
    ((odr ||| bit) &&& mask_not clear) &&& 0x78 = bit := by
  rw [Nat.land_assoc, h1, Nat.and_distrib_right, h2]
  apply Nat.eq_of_testBit_eq
  intro i
  simp only [Nat.testBit_lor, Nat.testBit_land]
  cases odr.testBit i <;> simp

/-- C10: whatever the output register held before and for every row index in [0,3], after the
two register writes of `keypad_cycle` exactly one of the row output bits 3 to 6 is set, namely
bit 6, 5, 4, 3 for row index 0, 1, 2, 3. -/
theorem C10_one_row_bit_after_cycle (g : Globals) (r : Fin 4) :
    (active_row_bits (keypad_cycle { g with row := (r : Nat) }).odr).length = 1 ∧
    active_row_bits (keypad_cycle { g with row := (r : Nat) }).odr = [6 - (r : Nat)] := by
  have key : active_row_bits (keypad_cycle { g with row := (r : Nat) }).odr
      = [6 - (r : Nat)] := by
    fin_cases r
    · rw [row_bits_of_masked _ 0x40 ?_]
      · decide
      · simpa [keypad_cycle] using drive_row_masked g.odr 0x40 0x38 (by decide) (by decide)
    · rw [row_bits_of_masked _ 0x20 ?_]
      · decide
      · simpa [keypad_cycle] using drive_row_masked g.odr 0x20 0x58 (by decide) (by decide)
    · rw [row_bits_of_masked _ 0x10 ?_]
      · decide
      · simpa [keypad_cycle] using drive_row_masked g.odr 0x10 0x68 (by decide) (by decide)
    · rw [row_bits_of_masked _ 0x8 ?_]
      · decide
      · simpa [keypad_cycle] using drive_row_masked g.odr 0x8 0x70 (by decide) (by decide)
  exact ⟨by rw [key]; rfl, key⟩

/-! ### Threshold-check task -/

theorem siren_free_of_mutex (e : Effect) (he : e ∈ siren) :
    e ≠ .mutex_lock ∧ e ≠ .mutex_unlock := by
  simp only [siren, siren_tone, List.mem_append, List.mem_flatten, List.mem_map,
    List.mem_singleton, List.mem_range] at he
  rcases he with (((rfl | ⟨l, ⟨i, ⟨n, _, rfl⟩, rfl⟩, hl⟩) | rfl) | ⟨l, ⟨i, ⟨n, _, rfl⟩, rfl⟩, hl⟩)
    | rfl
  · simp
  · simp only [List.mem_cons, List.mem_singleton, List.not_mem_nil, or_false] at hl
    rcases hl with rfl | rfl | rfl <;> simp
  · simp
  · simp only [List.mem_cons, List.mem_singleton, List.not_mem_nil, or_false] at hl
    rcases hl with rfl | rfl | rfl <;> simp
  · simp

theorem while_locked_append (es rest : List Effect)
    (h : ∀ e ∈ es, e ≠ .mutex_lock ∧ e ≠ .mutex_unlock) :
    while_locked true (es ++ rest) = es ++ while_locked true rest := by
  induction es with
  | nil => rfl
  | cons e es ih =>
    have he := h e (List.mem_cons_self _ _)
    have ih := ih (fun x hx => h x (List.mem_cons_of_mem _ hx))
    cases e <;> simp_all [while_locked]

theorem while_unlocked_append (es rest : List Effect)
    (h : ∀ e ∈ es, e ≠ .mutex_lock ∧ e ≠ .mutex_unlock) :
    while_unlocked true (es ++ rest) = while_unlocked true rest := by
  induction es with
  | nil => rfl
  | cons e es ih =>
    have he := h e (List.mem_cons_self _ _)
    have ih := ih (fun x hx => h x (List.mem_cons_of_mem _ hx))
    cases e <;> simp_all [while_unlocked]

theorem critical_section_frame (body : List Effect)
    (h : ∀ e ∈ body, e ≠ .mutex_lock ∧ e ≠ .mutex_unlock) :
    while_locked false ([.mutex_lock] ++ body ++ [.mutex_unlock, .watchdog_kick]) = body ∧
    while_unlocked false ([.mutex_lock] ++ body ++ [.mutex_unlock, .watchdog_kick])
      = [.watchdog_kick] := by
  constructor
  · rw [List.singleton_append, List.cons_append]
    show while_locked true (body ++ [.mutex_unlock, .watchdog_kick]) = body
    rw [while_locked_append _ _ h]
    exact List.append_nil _
  · rw [List.singleton_append, List.cons_append]
    show while_unlocked true (body ++ [.mutex_unlock, .watchdog_kick]) = [.watchdog_kick]
    rw [while_unlocked_append _ _ h]
    rfl

theorem alarm_body_free_of_mutex (g : Globals) :
    ∀ e ∈ (if alarm_condition g then siren else [.buzzer_write 0, .siren_led 0]),
      e ≠ .mutex_lock ∧ e ≠ .mutex_unlock := by
  intro e he
  by_cases h : alarm_condition g
  · rw [if_pos h] at he
    exact siren_free_of_mutex e he
  · rw [if_neg h] at he
    simp only [List.mem_cons, List.mem_singleton, List.not_mem_nil, or_false] at he
    rcases he with rfl | rfl <;> simp

theorem check_sensor_data_eq (g : Globals) :
    check_sensor_data g
      = [.mutex_lock]
          ++ (if alarm_condition g then siren else [.buzzer_write 0, .siren_led 0])
          ++ [.mutex_unlock, .watchdog_kick] := by
  by_cases hc : g.flag_celsius = true
  · have hiff : alarm_condition g ↔ ((g.current_celsius : ℚ) > g.temperature_threshold
        ∨ g.current_humidity < g.humidity_threshold) := by
      simp [alarm_condition, hc]
    by_cases h : alarm_condition g
    · simp only [check_sensor_data, hc, if_true, if_pos h, if_pos (hiff.1 h)]
    · simp only [check_sensor_data, hc, if_true, if_neg h, if_neg (fun x => h (hiff.2 x))]
  · have hiff : alarm_condition g ↔ (g.current_fahrenheit > g.temperature_threshold
        ∨ g.current_humidity < g.humidity_threshold) := by
      simp [alarm_condition, hc]
    by_cases h : alarm_condition g
    · simp only [check_sensor_data, hc, Bool.false_eq_true, if_false, if_pos h, if_pos (hiff.1 h)]
    · simp only [check_sensor_data, hc, Bool.false_eq_true, if_false, if_neg h,
        if_neg (fun x => h (hiff.2 x))]

theorem siren_led_on_mem_siren : Effect.siren_led 1 ∈ siren := by
  simp [siren]

/-- C5: the threshold-check task activates the alarm (runs `siren`, which switches the LED on)
exactly when the temperature in the selected unit is strictly above the temperature threshold
or the humidity is strictly below the humidity threshold; otherwise it writes duty 0 to the
buzzer and switches the LED off. The state 40 degrees, 30 percent against 35 and 50 activates
the alarm, the state 20 degrees, 60 percent against 35 and 50 is silent. -/
theorem C5_alarm_iff_threshold_violated (g : Globals) :
    (check_sensor_data g =
        if alarm_condition g then
          [.mutex_lock] ++ siren ++ [.mutex_unlock, .watchdog_kick]
        else [.mutex_lock, .buzzer_write 0, .siren_led 0, .mutex_unlock, .watchdog_kick]) ∧
    (Effect.siren_led 1 ∈ check_sensor_data g ↔ alarm_condition g) ∧
    (alarm_condition Globals.hot ∧ Effect.siren_led 1 ∈ check_sensor_data Globals.hot) ∧
    (¬ alarm_condition Globals.calm ∧
      check_sensor_data Globals.calm =
        [.mutex_lock, .buzzer_write 0, .siren_led 0, .mutex_unlock, .watchdog_kick]) := by
  have hiff : ∀ g : Globals, Effect.siren_led 1 ∈ check_sensor_data g ↔ alarm_condition g := by
    intro g
    rw [check_sensor_data_eq]
    by_cases h : alarm_condition g
    · simp [h, siren_led_on_mem_siren]
    · simp [h]
  have hhot : alarm_condition Globals.hot := by decide
  refine ⟨?_, hiff g, ⟨hhot, (hiff _).2 hhot⟩, by decide, by decide⟩
  rw [check_sensor_data_eq]
  by_cases h : alarm_condition g <;> simp [h]

/-- C9 as stated fails: in the silent state of the specification's example the buzzer and the
LED are written while the mutex is held. -/
theorem C9_actuator_written_under_lock :
    ¬ (∀ e ∈ while_locked false (check_sensor_data Globals.calm), e.is_actuator = false) := by
  decide

/-- C9 amended: in every invocation of `check_sensor_data` the actuator is driven while the
mutex is held: the effects between `mutex.lock` and `mutex.unlock` are the whole of `siren`
when the alarm condition holds and the buzzer and LED writes otherwise, they contain every
actuator write of the trace, and the only effect after `mutex.unlock` is the watchdog kick. -/
theorem C9_actuator_inside_critical_section (g : Globals) :
    while_locked false (check_sensor_data g)
        = (if alarm_condition g then siren else [.buzzer_write 0, .siren_led 0]) ∧
    while_unlocked false (check_sensor_data g) = [.watchdog_kick] ∧
    (while_locked false (check_sensor_data g)).filter Effect.is_actuator
        = (check_sensor_data g).filter Effect.is_actuator ∧
    (while_locked false (check_sensor_data g)).any Effect.is_actuator = true := by
  have hl : while_locked false (check_sensor_data g)
      = (if alarm_condition g then siren else [.buzzer_write 0, .siren_led 0]) := by
    rw [check_sensor_data_eq]
    exact (critical_section_frame _ (alarm_body_free_of_mutex g)).1
  have hu : while_unlocked false (check_sensor_data g) = [.watchdog_kick] := by
    rw [check_sensor_data_eq]
    exact (critical_section_frame _ (alarm_body_free_of_mutex g)).2
  refine ⟨hl, hu, ?_, ?_⟩
  · rw [hl, check_sensor_data_eq]
    simp [List.filter_append, Effect.is_actuator, List.filter_cons]
  · rw [hl]
    by_cases h : alarm_condition g
    · simp only [h, if_true, List.any_eq_true]
      exact ⟨_, siren_led_on_mem_siren, rfl⟩
    · simp [h, Effect.is_actuator]

/-! ### Key latch -/

theorem keypad_cycle_latch (g : Globals) :
    (keypad_cycle g).key = g.key ∧ (keypad_cycle g).is_key_pressed = g.is_key_pressed ∧
    (keypad_cycle g).flag_decimal_point = g.flag_decimal_point ∧
    (keypad_cycle g).flag_threshold = g.flag_threshold := by
  simp only [keypad_cycle]
  split_ifs <;> simp

theorem fire_latch (p : Press) (g : Globals) :
    (p.fire g).key = p.symbol ∧ (p.fire g).is_key_pressed = true ∧
    (p.fire g).flag_decimal_point
      = (g.flag_decimal_point || (decide (p = Press.star) && g.flag_threshold)) ∧
    (p.fire g).flag_threshold = g.flag_threshold := by
  obtain ⟨r, c⟩ := p
  fin_cases r <;> cases c <;>
    simp +decide [Press.fire, Press.symbol, Press.star, Column.rise, col1_isr_handler,
      col2_isr_handler, col3_isr_handler, col4_isr_handler, keypad_table]
  cases g.flag_threshold <;> simp

theorem latched_key (p : Press) (g : Globals) :
    (keypad_cycle (p.fire g)).key = p.symbol := by
  rw [(keypad_cycle_latch _).1, (fire_latch p g).1]

theorem latched_flag (p : Press) (g : Globals) :
    (keypad_cycle (p.fire g)).is_key_pressed = true := by
  rw [(keypad_cycle_latch _).2.1, (fire_latch p g).2.1]

theorem latched_decimal_point (p : Press) (g : Globals) :
    (keypad_cycle (p.fire g)).flag_decimal_point
      = (g.flag_decimal_point || (decide (p = Press.star) && g.flag_threshold)) := by
  rw [(keypad_cycle_latch _).2.2.1, (fire_latch p g).2.2.1]

theorem latched_threshold_flag (p : Press) (g : Globals) :
    (keypad_cycle (p.fire g)).flag_threshold = g.flag_threshold := by
  rw [(keypad_cycle_latch _).2.2.2, (fire_latch p g).2.2.2]

theorem digit_of_key_spec (s : String) (d : Nat) (h : digit_of_key s = some d) :
    s = digit_string [d] ∧ d < 10 := by
  unfold digit_of_key at h
  split_ifs at h <;> simp only [Option.some.injEq, reduceCtorEq] at h <;> subst h <;>
    subst s <;> exact ⟨by decide, by decide⟩

theorem symbol_cases (p : Press) :
    (digit_of_key p.symbol).isSome = true ∨ p.symbol = "*" ∨
      p.symbol = "A" ∨ p.symbol = "B" ∨ p.symbol = "C" ∨ p.symbol = "D" ∨ p.symbol = "#" := by
  obtain ⟨r, c⟩ := p
  fin_cases r <;> cases c <;> decide

/-! ### Celsius entry -/

theorem celsius_step (g : Globals) (count : Int) (t : String) (parsed : List String)
    (p : Press) :
    celsius_poll (p.fire g) count t parsed =
      if (digit_of_key p.symbol).isSome then
        celsius_validate { keypad_cycle (p.fire g) with is_key_pressed := false, key := "" }
          (count + 1) (t ++ p.symbol) parsed
      else .polling (keypad_cycle (p.fire g)) count t parsed := by
  simp only [celsius_poll, latched_key, latched_flag]
  obtain ⟨r, c⟩ := p
  fin_cases r <;> cases c <;> simp +decide [Press.symbol, keypad_table]

theorem celsius_idle (g : Globals) (count : Int) (t : String) (parsed : List String)
    (h : g.is_key_pressed = false) :
    celsius_poll g count t parsed = .polling (keypad_cycle g) count t parsed := by
  simp [celsius_poll, (keypad_cycle_latch g).2.1, h]

theorem celsius_run_returned (g : Globals) (parsed : List String) (ps : List Press) :
    celsius_run (.returned g parsed) ps = .returned g parsed := by
  cases ps <;> rfl

theorem stoi_two_digits (d1 d2 : Nat) (h1 : d1 < 10) (h2 : d2 < 10) :
    stoi (digit_string [d1] ++ digit_string [d2]) = some ((10 * d1 + d2 : Nat) : Int) := by
  interval_cases d1 <;> interval_cases d2 <;> rfl

theorem digits_of_cons (p : Press) (ps : List Press) :
    digits_of (p :: ps) =
      match digit_of_key p.symbol with
      | some d => d :: digits_of ps
      | none => digits_of ps := by
  simp only [digits_of, List.filterMap_cons]
  cases digit_of_key p.symbol <;> rfl

theorem celsius_run_matches (ps : List Press) :
    ∀ (g : Globals) (parsed : List String) (ds : List Nat), ds.length < 2 →
      (∀ d ∈ ds, d < 10) →
      (celsius_run (.polling g ds.length (digit_string ds) parsed) ps).Matches
        (fun g => g.temperature_threshold)
        (pairs_spec (fun v => decide (v ≤ 50)) (ds ++ digits_of ps)) := by
  induction ps with
  | nil =>
    intro g parsed ds hl hd
    match ds, hl with
    | [], _ => exact ⟨rfl, rfl⟩
    | [d], _ => exact ⟨rfl, rfl⟩
  | cons p ps ih =>
    intro g parsed ds hl hd
    rw [show celsius_run (.polling g ds.length (digit_string ds) parsed) (p :: ps)
        = celsius_run (celsius_poll (p.fire g) ds.length (digit_string ds) parsed) ps from rfl,
      celsius_step, digits_of_cons]
    cases hp : digit_of_key p.symbol with
    | none =>
      simp only [Option.isSome_none, Bool.false_eq_true, if_false]
      exact ih _ _ ds hl hd
    | some d =>
      obtain ⟨hs, hd10⟩ := digit_of_key_spec _ _ hp
      simp only [Option.isSome_some, if_true]
      rw [hs]
      match ds, hl, hd with
      | [], _, _ =>
        have h := ih { keypad_cycle (p.fire g) with is_key_pressed := false, key := "" }
          parsed [d] (by simp) (by simpa using hd10)
        simpa [celsius_validate, digit_string] using h
      | [d1], _, hd =>
        have h1 : d1 < 10 := hd d1 (by simp)
        simp only [celsius_validate, List.length_singleton, Nat.cast_one]
        rw [if_neg (by norm_num), stoi_two_digits d1 d h1 hd10]
        by_cases hv : 10 * d1 + d ≤ 50
        · have hq : ¬ (((10 * d1 + d : Nat) : Int) : ℚ) > 50 := by
            have : (((10 * d1 + d : Nat) : Int) : ℚ) ≤ ((50 : Nat) : ℚ) := by exact_mod_cast hv
            simpa using this
          simp only [hq, if_false]
          rw [celsius_run_returned]
          simp [pairs_spec, hv, Dialog.Matches]
        · have hq : (((10 * d1 + d : Nat) : Int) : ℚ) > 50 := by
            have : ((50 : Nat) : ℚ) < (((10 * d1 + d : Nat) : Int) : ℚ) := by
              exact_mod_cast (not_le.1 hv)
            simpa using this
          simp only [hq, if_true]
          have h := ih { keypad_cycle (p.fire g) with
            is_key_pressed := false, key := "",
            temperature_threshold := (((10 * d1 + d : Nat) : Int) : ℚ) }
            (parsed ++ [digit_string [d1] ++ digit_string [d]]) [] (by simp) (by simp)
          simpa [pairs_spec, hv, digit_string] using h

/-- C2: with the Celsius unit selected, `set_celsius_threshold` ignores the keys A, B, C, D, *
and # and takes the digits in aligned pairs; a pair is accepted exactly when its value is at
most 50, and then the procedure returns with `temperature_threshold` at that value; any other
pair is rejected, with the accumulator emptied and the count back to 0, and collection goes on
with the next pair. The keys 7 5 are rejected, 4 5 commits 45. -/
theorem C2_celsius_entry_pairs (g : Globals) (ps : List Press)
    (hc : g.flag_celsius = true) (hk : g.is_key_pressed = false) :
    (set_celsius_threshold g ps).Matches (fun g => g.temperature_threshold)
        (pairs_spec (fun v => decide (v ≤ 50)) (digits_of ps)) ∧
    ((set_celsius_threshold Globals.unitC [Press.digit 7, Press.digit 5]).acc? = some "" ∧
      (set_celsius_threshold Globals.unitC [Press.digit 7, Press.digit 5]).count? = some 0 ∧
      (set_celsius_threshold Globals.unitC [Press.digit 7, Press.digit 5]).parsed = ["75"]) ∧
    (set_celsius_threshold Globals.unitC [Press.digit 4, Press.digit 5]).result.map
        (fun g => g.temperature_threshold) = some 45 := by
  refine ⟨?_, by decide, by decide⟩
  have h := celsius_run_matches ps (keypad_cycle { g with temperature_threshold := 100 })
    [] [] (by simp) (by simp)
  have hdef : set_celsius_threshold g ps
      = celsius_run (celsius_poll { g with temperature_threshold := 100 } 0 "" []) ps := by
    unfold set_celsius_threshold
    rw [if_neg (by simp [hc])]
  rw [hdef, celsius_idle { g with temperature_threshold := 100 } 0 "" [] hk]
  exact h

/-- C2 at a concrete input: from the state `main` leaves after key C, the keys 7 * 5 B 5 0
reject 75 and commit 50, the upper bound of the range. -/
theorem C2_celsius_entry_pairs_witness :
    Globals.unitC.flag_celsius = true ∧ Globals.unitC.is_key_pressed = false ∧
    (set_celsius_threshold Globals.unitC
        [Press.digit 7, Press.star, Press.digit 5, ⟨1, .col4⟩, Press.digit 5,
          Press.digit 0]).Matches (fun g => g.temperature_threshold) (.accepted 50) :=
  ⟨rfl, rfl, (C2_celsius_entry_pairs Globals.unitC
      [Press.digit 7, Press.star, Press.digit 5, ⟨1, .col4⟩, Press.digit 5, Press.digit 0]
      rfl rfl).1⟩

/-! ### Humidity entry -/

theorem humidity_step (g : Globals) (count : Int) (t : String) (parsed : List String)
    (p : Press) :
    humidity_poll (p.fire g) count t parsed =
      if (digit_of_key p.symbol).isSome then
        humidity_validate { keypad_cycle (p.fire g) with is_key_pressed := false, key := "" }
          (count + 1) (t ++ p.symbol) parsed
      else .polling (keypad_cycle (p.fire g)) count t parsed := by
  simp only [humidity_poll, latched_key, latched_flag]
  obtain ⟨r, c⟩ := p
  fin_cases r <;> cases c <;> simp +decide [Press.symbol, keypad_table]

theorem humidity_idle (g : Globals) (count : Int) (t : String) (parsed : List String)
    (h : g.is_key_pressed = false) :
    humidity_poll g count t parsed = .polling (keypad_cycle g) count t parsed := by
  simp [humidity_poll, (keypad_cycle_latch g).2.1, h]

theorem humidity_run_returned (g : Globals) (parsed : List String) (ps : List Press) :
    humidity_run (.returned g parsed) ps = .returned g parsed := by
  cases ps <;> rfl

theorem humidity_run_matches (ps : List Press) :
    ∀ (g : Globals) (parsed : List String) (ds : List Nat), ds.length < 2 →
      (∀ d ∈ ds, d < 10) →
      (humidity_run (.polling g ds.length (digit_string ds) parsed) ps).Matches
        (fun g => g.humidity_threshold)
        (pairs_spec (fun v => decide (20 ≤ v ∧ v ≤ 80)) (ds ++ digits_of ps)) := by
  induction ps with
  | nil =>
    intro g parsed ds hl hd
    match ds, hl with
    | [], _ => exact ⟨rfl, rfl⟩
    | [d], _ => exact ⟨rfl, rfl⟩
  | cons p ps ih =>
    intro g parsed ds hl hd
    rw [show humidity_run (.polling g ds.length (digit_string ds) parsed) (p :: ps)
        = humidity_run (humidity_poll (p.fire g) ds.length (digit_string ds) parsed) ps from rfl,
      humidity_step, digits_of_cons]
    cases hp : digit_of_key p.symbol with
    | none =>
      simp only [Option.isSome_none, Bool.false_eq_true, if_false]
      exact ih _ _ ds hl hd
    | some d =>
      obtain ⟨hs, hd10⟩ := digit_of_key_spec _ _ hp
      simp only [Option.isSome_some, if_true]
      rw [hs]
      match ds, hl, hd with
      | [], _, _ =>
        have h := ih { keypad_cycle (p.fire g) with is_key_pressed := false, key := "" }
          parsed [d] (by simp) (by simpa using hd10)
        simpa [humidity_validate, digit_string] using h
      | [d1], _, hd =>
        have h1 : d1 < 10 := hd d1 (by simp)
        simp only [humidity_validate, List.length_singleton, Nat.cast_one]
        rw [if_neg (by norm_num), stoi_two_digits d1 d h1 hd10]
        by_cases hv : 20 ≤ 10 * d1 + d ∧ 10 * d1 + d ≤ 80
        · have hq : ¬ (((10 * d1 + d : Nat) : Int) < 20 ∨ ((10 * d1 + d : Nat) : Int) > 80) := by
            omega
          simp only [hq, if_false]
          rw [humidity_run_returned]
          simp [pairs_spec, hv, Dialog.Matches]
        · have hq : ((10 * d1 + d : Nat) : Int) < 20 ∨ ((10 * d1 + d : Nat) : Int) > 80 := by
            omega
          simp only [hq, if_true]
          have h := ih { keypad_cycle (p.fire g) with
            is_key_pressed := false, key := "",
            humidity_threshold := ((10 * d1 + d : Nat) : Int) }
            (parsed ++ [digit_string [d1] ++ digit_string [d]]) [] (by simp) (by simp)
          simpa [pairs_spec, hv, digit_string] using h

/-- C3: in `set_humidity_threshold` the keys that are not digits are ignored and the digits
are taken in aligned pairs; a pair is accepted exactly when its value lies in [20,80], and then
the procedure returns with `humidity_threshold` at that value; any other pair is rejected, with
the accumulator emptied and the count back to 0. The keys 1 5 are rejected, 5 0 commits 50. -/
theorem C3_humidity_entry_pairs (g : Globals) (ps : List Press)
    (hk : g.is_key_pressed = false) :
    (set_humidity_threshold g ps).Matches (fun g => g.humidity_threshold)
        (pairs_spec (fun v => decide (20 ≤ v ∧ v ≤ 80)) (digits_of ps)) ∧
    ((set_humidity_threshold Globals.unitC [Press.digit 1, Press.digit 5]).acc? = some "" ∧
      (set_humidity_threshold Globals.unitC [Press.digit 1, Press.digit 5]).count? = some 0 ∧
      (set_humidity_threshold Globals.unitC [Press.digit 1, Press.digit 5]).parsed = ["15"]) ∧
    (set_humidity_threshold Globals.unitC [Press.digit 5, Press.digit 0]).result.map
        (fun g => g.humidity_threshold) = some 50 := by
  refine ⟨?_, by decide, by decide⟩
  have h := humidity_run_matches ps (keypad_cycle { g with humidity_threshold := 0 })
    [] [] (by simp) (by simp)
  have hdef : set_humidity_threshold g ps
      = humidity_run (humidity_poll { g with humidity_threshold := 0 } 0 "" []) ps := rfl
  rw [hdef, humidity_idle { g with humidity_threshold := 0 } 0 "" [] hk]
  exact h

/-- C3 at a concrete input: from the state `main` leaves, the keys 1 A 5 # 8 0 reject 15 and
commit 80, the upper bound of the range. -/
theorem C3_humidity_entry_pairs_witness :
    Globals.unitC.is_key_pressed = false ∧
    (set_humidity_threshold Globals.unitC
        [Press.digit 1, ⟨0, .col4⟩, Press.digit 5, ⟨3, .col3⟩, Press.digit 8,
          Press.digit 0]).Matches (fun g => g.humidity_threshold) (.accepted 80) :=
  ⟨rfl, (C3_humidity_entry_pairs Globals.unitC
      [Press.digit 1, ⟨0, .col4⟩, Press.digit 5, ⟨3, .col3⟩, Press.digit 8, Press.digit 0]
      rfl).1⟩

/-! ### Fahrenheit entry -/

theorem fahrenheit_step (g : Globals) (count : Int) (t : String) (parsed : List String)
    (p : Press) :
    fahrenheit_poll (p.fire g) count t parsed =
      if (digit_of_key p.symbol).isSome then
        fahrenheit_validate { keypad_cycle (p.fire g) with is_key_pressed := false, key := "" }
          (count + 1) (t ++ p.symbol) parsed
      else if p = Press.star then
        if g.flag_decimal_point || g.flag_threshold then
          fahrenheit_validate
            { keypad_cycle (p.fire g) with
              is_key_pressed := false, flag_decimal_point := false, flag_threshold := false,
              key := "" }
            3 (t ++ ".") parsed
        else
          fahrenheit_validate
            { keypad_cycle (p.fire g) with is_key_pressed := false, key := "" } count t parsed
      else .polling (keypad_cycle (p.fire g)) count t parsed := by
  simp only [fahrenheit_poll, latched_key, latched_flag, latched_decimal_point]
  obtain ⟨r, c⟩ := p
  fin_cases r <;> cases c <;> simp +decide [Press.symbol, keypad_table]

theorem fahrenheit_idle (g : Globals) (count : Int) (t : String) (parsed : List String)
    (h : g.is_key_pressed = false) :
    fahrenheit_poll g count t parsed = .polling (keypad_cycle g) count t parsed := by
  simp [fahrenheit_poll, (keypad_cycle_latch g).2.1, h]

theorem fahrenheit_run_returned (g : Globals) (parsed : List String) (ps : List Press) :
    fahrenheit_run (.returned g parsed) ps = .returned g parsed := by
  cases ps <;> rfl

theorem fahrenheit_run_threw (parsed : List String) (ps : List Press) :
    fahrenheit_run (.threw parsed) ps = .threw parsed := by
  cases ps <;> rfl

theorem numeral_char (ch : Char) (h : ch.isDigit = true ∨ ch = '.') :
    isspace ch = false ∧ ch ≠ '-' ∧ ch ≠ '+' := by
  refine ⟨?_, ?_, ?_⟩
  · rcases h with h | rfl
    · simp only [isspace, Bool.or_eq_false_iff, beq_eq_false_iff_ne]
      refine ⟨⟨⟨⟨⟨?_, ?_⟩, ?_⟩, ?_⟩, ?_⟩, ?_⟩ <;> rintro rfl <;> exact absurd h (by decide)
    · decide
  · rcases h with h | rfl
    · rintro rfl; exact absurd h (by decide)
    · decide
  · rcases h with h | rfl
    · rintro rfl; exact absurd h (by decide)
    · decide

theorem float_magnitude_nonneg (n d : Nat) : 0 ≤ float_magnitude n d := by
  unfold float_magnitude
  dsimp only
  split_ifs <;> first
    | exact le_refl _
    | exact Nat.cast_nonneg _
    | exact Rat.mkRat_nonneg (Int.natCast_nonneg _) _

theorem round_to_float_nonneg (a b : Nat) : 0 ≤ round_to_float (mkRat a b) := by
  have h : ¬ (mkRat (a : Int) b).num < 0 :=
    not_lt.2 (Rat.num_nonneg.2 (Rat.mkRat_nonneg (Int.natCast_nonneg _) _))
  unfold round_to_float
  rw [if_neg h]
  exact float_magnitude_nonneg _ _

theorem stof_nonneg (s : String) (v : ℚ) (hs : ∀ ch ∈ s.data, ch.isDigit = true ∨ ch = '.')
    (h : stof s = some v) : 0 ≤ v := by
  unfold stof at h
  cases hd : s.data with
  | nil => simp [hd] at h
  | cons c t =>
    obtain ⟨h1, h2, h3⟩ := numeral_char c (hs c (by simp [hd]))
    simp only [hd, List.dropWhile_cons, h1, Bool.false_eq_true, if_false, h2, h3] at h
    split_ifs at h <;> simp only [Option.some.injEq] at h <;> rw [← h] <;>
      exact round_to_float_nonneg _ _

theorem symbol_numeral (p : Press) (h : (digit_of_key p.symbol).isSome = true) :
    p.symbol.length = 1 ∧ ∀ ch ∈ p.symbol.data, ch.isDigit = true ∨ ch = '.' := by
  obtain ⟨r, c⟩ := p
  fin_cases r <;> cases c <;> first | exact absurd h (by decide) | decide

theorem fahrenheit_poll_inv (g : Globals) (count : Int) (t : String) (parsed : List String)
    (p : Press) (h : (Dialog.polling g count t parsed).FahrenheitInv) :
    (fahrenheit_poll (p.fire g) count t parsed).FahrenheitInv := by
  obtain ⟨hp, h0, h4, hch, hlen⟩ := h
  rw [fahrenheit_step]
  by_cases hd : (digit_of_key p.symbol).isSome = true
  · obtain ⟨hs1, hsch⟩ := symbol_numeral p hd
    have hch2 : ∀ ch ∈ (t ++ p.symbol).data, ch.isDigit = true ∨ ch = '.' := by
      intro ch hmem
      rw [String.data_append, List.mem_append] at hmem
      exact hmem.elim (hch ch) (hsch ch)
    have hlen2 : ((t ++ p.symbol).length : Int) ≤ count + 1 + 2 := by
      rw [String.length_append, hs1]
      rcases hlen with h | ⟨_, _, h⟩ <;> push_cast <;> omega
    rw [if_pos hd]
    unfold fahrenheit_validate
    by_cases hc : count + 1 < 5
    · rw [if_pos hc]
      refine ⟨hp, by omega, by omega, hch2, ?_⟩
      rcases hlen with h | ⟨h1, h2, h⟩
      · left
        rw [String.length_append, hs1]
        push_cast
        omega
      · right
        refine ⟨by simpa [latched_threshold_flag] using h1, ?_, hlen2⟩
        have hstar : p ≠ Press.star := by
          rintro rfl
          exact absurd hd (by decide)
        simp [latched_decimal_point, h1, h2]
    · rw [if_neg hc]
      have hp2 : ∀ s ∈ parsed ++ [t ++ p.symbol], s.length ≤ 7 := by
        intro s hs
        rw [List.mem_append, List.mem_singleton] at hs
        rcases hs with hs | rfl
        · exact hp s hs
        · have : ((t ++ p.symbol).length : Int) ≤ 7 := by omega
          exact_mod_cast this
      cases hv : stof (t ++ p.symbol) with
      | none => exact hp2
      | some v =>
        have hv0 : 0 ≤ v := stof_nonneg _ _ hch2 hv
        by_cases hbig : v > 122
        · simp only [hbig, if_true]
          refine ⟨hp2, le_refl _, by norm_num, by simp, Or.inl ?_⟩
          simp
        · simp only [hbig, if_false]
          exact ⟨hp2, hv0, not_lt.1 hbig⟩
  · rw [if_neg hd]
    by_cases hstar : p = Press.star
    · rw [if_pos hstar]
      by_cases hf : (g.flag_decimal_point || g.flag_threshold) = true
      · rw [if_pos hf]
        unfold fahrenheit_validate
        rw [if_pos (by norm_num)]
        refine ⟨hp, by norm_num, by norm_num, ?_, Or.inr ⟨rfl, rfl, ?_⟩⟩
        · intro ch hmem
          rw [String.data_append, List.mem_append] at hmem
          rcases hmem with hmem | hmem
          · exact hch ch hmem
          · right
            simpa using hmem
        · rw [String.length_append]
          rcases hlen with h | ⟨h1, h2, _⟩
          · have : (".".length : Int) = 1 := rfl
            push_cast
            omega
          · simp [h1, h2] at hf
      · rw [if_neg hf]
        unfold fahrenheit_validate
        rw [if_pos (by omega)]
        refine ⟨hp, h0, h4, hch, ?_⟩
        rcases hlen with h | ⟨h1, h2, h⟩
        · exact Or.inl h
        · right
          refine ⟨by simpa [latched_threshold_flag] using h1, ?_, h⟩
          simp [latched_decimal_point, h1, h2]
    · rw [if_neg hstar]
      refine ⟨hp, h0, h4, hch, ?_⟩
      rcases hlen with h | ⟨h1, h2, h⟩
      · exact Or.inl h
      · right
        refine ⟨by simpa [latched_threshold_flag] using h1, ?_, h⟩
        simp [latched_decimal_point, h1, h2]

theorem fahrenheit_run_inv (ps : List Press) :
    ∀ d : Dialog, d.FahrenheitInv → (fahrenheit_run d ps).FahrenheitInv := by
  induction ps with
  | nil =>
    intro d h
    cases d <;> exact h
  | cons p ps ih =>
    intro d h
    cases d with
    | polling g count t parsed => exact ih _ (fahrenheit_poll_inv g count t parsed p h)
    | returned g parsed => exact h
    | threw parsed => exact h

theorem set_fahrenheit_threshold_inv (g : Globals) (ps : List Press)
    (hc : g.flag_celsius = false) (hk : g.is_key_pressed = false) :
    (set_fahrenheit_threshold g ps).FahrenheitInv := by
  have hdef : set_fahrenheit_threshold g ps
      = fahrenheit_run (fahrenheit_poll { g with temperature_threshold := 123 } 0 "" []) ps := by
    unfold set_fahrenheit_threshold
    rw [if_neg (by simp [hc])]
  rw [hdef, fahrenheit_idle { g with temperature_threshold := 123 } 0 "" [] hk]
  apply fahrenheit_run_inv
  exact ⟨by simp, le_refl _, by norm_num, by simp, Or.inl rfl⟩


theorem fahrenheit_take_digit (g : Globals) (count : Int) (t : String) (parsed : List String)
    (d : Nat) (ps : List Press) (hd : d < 10) :
    fahrenheit_run (.polling g count t parsed) (Press.digit d :: ps) =
      fahrenheit_run
        (fahrenheit_validate
          { keypad_cycle ((Press.digit d).fire g) with is_key_pressed := false, key := "" }
          (count + 1) (t ++ digit_string [d]) parsed) ps := by
  rw [show fahrenheit_run (.polling g count t parsed) (Press.digit d :: ps)
      = fahrenheit_run (fahrenheit_poll ((Press.digit d).fire g) count t parsed) ps from rfl,
    fahrenheit_step]
  interval_cases d <;> rfl

theorem fahrenheit_take_point (g : Globals) (count : Int) (t : String) (parsed : List String)
    (ps : List Press) (h : g.flag_threshold = true) :
    fahrenheit_run (.polling g count t parsed) (Press.star :: ps) =
      fahrenheit_run
        (.polling
          { keypad_cycle (Press.star.fire g) with
            is_key_pressed := false, flag_decimal_point := false, flag_threshold := false,
            key := "" }
          3 (t ++ ".") parsed) ps := by
  rw [show fahrenheit_run (.polling g count t parsed) (Press.star :: ps)
      = fahrenheit_run (fahrenheit_poll (Press.star.fire g) count t parsed) ps from rfl,
    fahrenheit_step, if_neg (by decide), if_pos rfl, if_pos (by simp [h])]
  rfl

theorem stof_two_decimals (d : Nat) (hd : d < 10) :
    stof ("" ++ digit_string [9] ++ digit_string [8] ++ "." ++ digit_string [5]
        ++ digit_string [d]) = some (round_to_float (mkRat (9850 + d) 100)) := by
  interval_cases d <;> rfl

theorem two_decimals_accepted (d : Nat) (hd : d < 10) :
    round_to_float (mkRat (9850 + d) 100) ≤ 122 := by
  interval_cases d <;> decide

theorem fahrenheit_collect_digit (g : Globals) (count : Int) (t : String)
    (parsed : List String) (d : Nat) (ps : List Press) (hd : d < 10) (hc : count + 1 < 5) :
    fahrenheit_run (.polling g count t parsed) (Press.digit d :: ps) =
      fahrenheit_run
        (.polling
          { keypad_cycle ((Press.digit d).fire g) with is_key_pressed := false, key := "" }
          (count + 1) (t ++ digit_string [d]) parsed) ps := by
  rw [fahrenheit_take_digit _ _ _ _ _ _ hd]
  simp only [fahrenheit_validate, hc, if_true]

/-- C4 as stated fails: after the four keys 9, 8, *, 5 in the state `main` leaves behind key B
the procedure has not returned. -/
theorem C4_four_keys_do_not_return :
    (set_fahrenheit_threshold Globals.unitB
      [Press.digit 9, Press.digit 8, Press.star, Press.digit 5]).result = none := by
  decide

/-- C4 amended: in Fahrenheit entry with the decimal mode flag set, the keys 9, 8, *, 5 make
the accumulator "98.5" with the count at 4, one short of 5, so the procedure is still
collecting and nothing has been parsed; one further digit key `d` completes the entry, which is
accepted and returns with `temperature_threshold` at the `float` nearest to 98.5 + d/100, at
most 122: exactly 98.5 for the key 0, and 3230597/32768 for the key 9. -/
theorem C4_fifth_digit_completes_entry (g : Globals) (d : Nat)
    (hc : g.flag_celsius = false) (hk : g.is_key_pressed = false)
    (ht : g.flag_threshold = true) (hd : d < 10) :
    ((set_fahrenheit_threshold g
        [Press.digit 9, Press.digit 8, Press.star, Press.digit 5]).acc? = some "98.5" ∧
      (set_fahrenheit_threshold g
        [Press.digit 9, Press.digit 8, Press.star, Press.digit 5]).count? = some 4 ∧
      (set_fahrenheit_threshold g
        [Press.digit 9, Press.digit 8, Press.star, Press.digit 5]).parsed = []) ∧
    ((set_fahrenheit_threshold g
        [Press.digit 9, Press.digit 8, Press.star, Press.digit 5, Press.digit d]).result.map
        (fun g => g.temperature_threshold) = some (round_to_float (mkRat (9850 + d) 100)) ∧
      round_to_float (mkRat (9850 + d) 100) ≤ 122) ∧
    ((set_fahrenheit_threshold g
        [Press.digit 9, Press.digit 8, Press.star, Press.digit 5, Press.digit 0]).result.map
        (fun g => g.temperature_threshold) = some ((197 : ℚ) / 2) ∧
      round_to_float (mkRat 9859 100) = mkRat 3230597 32768) := by
  have hdef : ∀ ps, set_fahrenheit_threshold g ps
      = fahrenheit_run (.polling (keypad_cycle { g with temperature_threshold := 123 }) 0 "" [])
          ps := by
    intro ps
    unfold set_fahrenheit_threshold
    rw [if_neg (by simp [hc])]
    exact congrArg (fun x => fahrenheit_run x ps)
      (fahrenheit_idle { g with temperature_threshold := 123 } 0 "" [] hk)
  have hflag : ∀ (p q : Press) (g0 : Globals), g0.flag_threshold = true →
      ({ keypad_cycle (q.fire
          { keypad_cycle (p.fire (keypad_cycle g0)) with is_key_pressed := false, key := "" })
        with is_key_pressed := false, key := "" } : Globals).flag_threshold = true := by
    intro p q g0 h0
    simp [latched_threshold_flag, (keypad_cycle_latch g0).2.2.2, h0]
  have hfive : ∀ k : Nat, k < 10 →
      (set_fahrenheit_threshold g
        [Press.digit 9, Press.digit 8, Press.star, Press.digit 5, Press.digit k]).result.map
        (fun g => g.temperature_threshold) = some (round_to_float (mkRat (9850 + k) 100)) := by
    intro k hk10
    rw [hdef,
      fahrenheit_collect_digit _ _ _ _ 9 _ (by norm_num) (by norm_num),
      fahrenheit_collect_digit _ _ _ _ 8 _ (by norm_num) (by norm_num),
      fahrenheit_take_point _ _ _ _ _ (hflag _ _ { g with temperature_threshold := 123 } ht),
      fahrenheit_collect_digit _ _ _ _ 5 _ (by norm_num) (by norm_num),
      fahrenheit_take_digit _ _ _ _ k _ hk10]
    simp only [fahrenheit_validate]
    rw [if_neg (by norm_num), stof_two_decimals k hk10]
    have hle : ¬ round_to_float (mkRat (9850 + k) 100) > 122 :=
      not_lt.2 (two_decimals_accepted k hk10)
    simp only [hle, if_false]
    rfl
  have hhalf : round_to_float (mkRat (9850 + ((0 : Nat) : Int)) 100) = (197 : ℚ) / 2 := by
    rw [show round_to_float (mkRat (9850 + ((0 : Nat) : Int)) 100) = mkRat 197 2 from by decide,
      Rat.mkRat_eq_div]
    norm_num
  refine ⟨?_, ⟨hfive d hd, two_decimals_accepted d hd⟩, ?_, by decide⟩
  · rw [hdef,
      fahrenheit_collect_digit _ _ _ _ 9 _ (by norm_num) (by norm_num),
      fahrenheit_collect_digit _ _ _ _ 8 _ (by norm_num) (by norm_num),
      fahrenheit_take_point _ _ _ _ _ (hflag _ _ { g with temperature_threshold := 123 } ht),
      fahrenheit_collect_digit _ _ _ _ 5 _ (by norm_num) (by norm_num)]
    exact ⟨rfl, rfl, rfl⟩
  · rw [hfive 0 (by norm_num), hhalf]

/-- C4 amended at a concrete input: from the state `main` leaves behind key B, the keys
9, 8, *, 5, 9 commit 3230597/32768, the `float` nearest to 98.59, and the keys 9, 8, *, 5, 0
commit 98.5. -/
theorem C4_fifth_digit_completes_entry_witness :
    Globals.unitB.flag_celsius = false ∧ Globals.unitB.is_key_pressed = false ∧
    Globals.unitB.flag_threshold = true ∧ 9 < 10 ∧
    ((set_fahrenheit_threshold Globals.unitB
        [Press.digit 9, Press.digit 8, Press.star, Press.digit 5, Press.digit 9]).result.map
        (fun g => g.temperature_threshold) = some (round_to_float (mkRat (9850 + 9) 100)) ∧
      round_to_float (mkRat (9850 + 9) 100) ≤ 122) ∧
    ((set_fahrenheit_threshold Globals.unitB
        [Press.digit 9, Press.digit 8, Press.star, Press.digit 5, Press.digit 0]).result.map
        (fun g => g.temperature_threshold) = some ((197 : ℚ) / 2) ∧
      round_to_float (mkRat 9859 100) = mkRat 3230597 32768) :=
  ⟨rfl, rfl, rfl, by decide,
    (C4_fifth_digit_completes_entry Globals.unitB 9 rfl rfl rfl (by decide)).2⟩

/-- C6: on every sequence of key presses on which `set_fahrenheit_threshold` returns, with or
without an inserted decimal point and after any number of rejected attempts, the committed
`temperature_threshold` lies in [0,122]. -/
theorem C6_fahrenheit_commit_in_range (g : Globals) (ps : List Press) (g' : Globals)
    (hc : g.flag_celsius = false) (hk : g.is_key_pressed = false)
    (hret : (set_fahrenheit_threshold g ps).result = some g') :
    0 ≤ g'.temperature_threshold ∧ g'.temperature_threshold ≤ 122 := by
  have hinv := set_fahrenheit_threshold_inv g ps hc hk
  cases hrun : set_fahrenheit_threshold g ps with
  | polling g1 count t parsed => simp [hrun, Dialog.result] at hret
  | threw parsed => simp [hrun, Dialog.result] at hret
  | returned g1 parsed =>
    rw [hrun] at hinv hret
    simp only [Dialog.result, Option.some.injEq] at hret
    subst hret
    exact hinv.2

/-- C6 at a concrete input: after the rejected attempt 999.99 the keys 1, 2, 2, 0, 0 (the
decimal point is no longer available) commit 122, the upper bound of the range. -/
theorem C6_fahrenheit_commit_in_range_witness :
    Globals.unitB.flag_celsius = false ∧ Globals.unitB.is_key_pressed = false ∧
    (set_fahrenheit_threshold Globals.unitB
        [Press.digit 9, Press.digit 9, Press.digit 9, Press.star, Press.digit 9, Press.digit 9,
          Press.digit 0, Press.digit 0, Press.digit 1, Press.digit 2, Press.digit 2]).result
      = some { Globals.boot 64 with row := 1, temperature_threshold := 122 } ∧
    (0 : ℚ) ≤ 122 ∧ (122 : ℚ) ≤ 122 :=
  ⟨rfl, rfl, by decide,
    C6_fahrenheit_commit_in_range Globals.unitB
      [Press.digit 9, Press.digit 9, Press.digit 9, Press.star, Press.digit 9, Press.digit 9,
        Press.digit 0, Press.digit 0, Press.digit 1, Press.digit 2, Press.digit 2]
      { Globals.boot 64 with row := 1, temperature_threshold := 122 } rfl rfl (by decide)⟩

/-- C7 fails on the code for Fahrenheit entry: from the state `main` leaves behind key B, the
keys 9 9 9 * 9 9 end in a rejection (999.99 is parsed, the accumulator is empty and the count
is 0 again), but the decimal flags stay cleared. The keys 0 0 * 0 9 9 commit 0.09 in a fresh
dialog (as a `float`, 3019899/33554432) and 99 after the rejection; the keys 9 8 * 5 0 commit
98.5 in a fresh dialog and commit nothing after the rejection, where they leave "9850" in the
accumulator. -/
theorem C7_decimal_mode_lost_after_rejection :
    ((set_fahrenheit_threshold Globals.unitB
        [Press.digit 9, Press.digit 9, Press.digit 9, Press.star, Press.digit 9,
          Press.digit 9]).acc? = some "" ∧
      (set_fahrenheit_threshold Globals.unitB
        [Press.digit 9, Press.digit 9, Press.digit 9, Press.star, Press.digit 9,
          Press.digit 9]).count? = some 0 ∧
      (set_fahrenheit_threshold Globals.unitB
        [Press.digit 9, Press.digit 9, Press.digit 9, Press.star, Press.digit 9,
          Press.digit 9]).parsed = ["999.99"]) ∧
    ((set_fahrenheit_threshold Globals.unitB
        [Press.digit 0, Press.digit 0, Press.star, Press.digit 0, Press.digit 9,
          Press.digit 9]).result.map (fun g => g.temperature_threshold)
        = some (mkRat 3019899 33554432) ∧
      (set_fahrenheit_threshold Globals.unitB
        ([Press.digit 9, Press.digit 9, Press.digit 9, Press.star, Press.digit 9, Press.digit 9]
          ++ [Press.digit 0, Press.digit 0, Press.star, Press.digit 0, Press.digit 9,
            Press.digit 9])).result.map (fun g => g.temperature_threshold) = some 99) ∧
    ((set_fahrenheit_threshold Globals.unitB
        [Press.digit 9, Press.digit 8, Press.star, Press.digit 5,
          Press.digit 0]).result.map (fun g => g.temperature_threshold) = some (mkRat 197 2) ∧
      (set_fahrenheit_threshold Globals.unitB
        ([Press.digit 9, Press.digit 9, Press.digit 9, Press.star, Press.digit 9, Press.digit 9]
          ++ [Press.digit 9, Press.digit 8, Press.star, Press.digit 5,
            Press.digit 0])).result = none ∧
      (set_fahrenheit_threshold Globals.unitB
        ([Press.digit 9, Press.digit 9, Press.digit 9, Press.star, Press.digit 9, Press.digit 9]
          ++ [Press.digit 9, Press.digit 8, Press.star, Press.digit 5,
            Press.digit 0])).acc? = some "9850") := by
  decide

/-- C8 as stated fails: entering 100.50, that is the keys 1 0 0 * 5 0 in the state `main`
leaves behind key B, hands a string of 6 characters to the validation. -/
theorem C8_six_characters_validated :
    (set_fahrenheit_threshold Globals.unitB
        [Press.digit 1, Press.digit 0, Press.digit 0, Press.star, Press.digit 5,
          Press.digit 0]).parsed = ["100.50"] ∧
    ¬ ((set_fahrenheit_threshold Globals.unitB
        [Press.digit 1, Press.digit 0, Press.digit 0, Press.star, Press.digit 5,
          Press.digit 0]).parsed.all (fun s => decide (s.length ≤ 5)) = true) := by
  decide

/-- C8 amended: for every sequence of key presses, whatever the decimal flags, every string
handed to the validation of `set_fahrenheit_threshold` has at most 7 characters; the bound is
reached by the keys 1 2 3 4 * 5 6, which hand over "1234.56". -/
theorem C8_validated_length_at_most_seven (g : Globals) (ps : List Press)
    (hk : g.is_key_pressed = false) :
    (set_fahrenheit_threshold g ps).parsed.all (fun s => decide (s.length ≤ 7)) = true ∧
    (set_fahrenheit_threshold Globals.unitB
        [Press.digit 1, Press.digit 2, Press.digit 3, Press.digit 4, Press.star, Press.digit 5,
          Press.digit 6]).parsed = ["1234.56"] := by
  refine ⟨?_, by decide⟩
  rw [List.all_eq_true]
  intro s hs
  rw [decide_eq_true_eq]
  by_cases hc : g.flag_celsius = true
  · simp [set_fahrenheit_threshold, hc, Dialog.parsed] at hs
  · have hinv := set_fahrenheit_threshold_inv g ps (by simpa using hc) hk
    cases hrun : set_fahrenheit_threshold g ps with
    | polling g1 count t parsed =>
      rw [hrun] at hinv hs
      exact hinv.1 s hs
    | threw parsed =>
      rw [hrun] at hinv hs
      exact hinv s hs
    | returned g1 parsed =>
      rw [hrun] at hinv hs
      exact hinv.1 s hs

/-- C8 amended at a concrete input: the keys 1 0 0 * 5 0 hand over one string of 6
characters. -/
theorem C8_validated_length_at_most_seven_witness :
    Globals.unitB.is_key_pressed = false ∧
    (set_fahrenheit_threshold Globals.unitB
        [Press.digit 1, Press.digit 0, Press.digit 0, Press.star, Press.digit 5,
          Press.digit 0]).parsed.all (fun s => decide (s.length ≤ 7)) = true :=
  ⟨rfl, (C8_validated_length_at_most_seven Globals.unitB
      [Press.digit 1, Press.digit 0, Press.digit 0, Press.star, Press.digit 5, Press.digit 0]
      rfl).1⟩

/-! ### Row index -/

theorem keypad_cycle_row (g : Globals) : (keypad_cycle g).row = Int.tmod (g.row + 1) 4 := by
  simp only [keypad_cycle]
  split_ifs <;> rfl

theorem rise_row (c : Column) (g : Globals) : (c.rise g).row = g.row := by
  cases c <;>
    simp only [Column.rise, col1_isr_handler, col2_isr_handler, col3_isr_handler,
      col4_isr_handler] <;>
    split_ifs <;> rfl

theorem keypad_cycle_row_range (g : Globals) (h0 : 0 ≤ g.row) (h3 : g.row ≤ 3) :
    0 ≤ (keypad_cycle g).row ∧ (keypad_cycle g).row ≤ 3 := by
  rw [keypad_cycle_row]
  have h : g.row = 0 ∨ g.row = 1 ∨ g.row = 2 ∨ g.row = 3 := by omega
  rcases h with h | h | h | h <;> rw [h] <;> decide

theorem fire_row_range (p : Press) (g : Globals) :
    0 ≤ (p.fire g).row ∧ (p.fire g).row ≤ 3 := by
  unfold Press.fire
  rw [rise_row]
  have := p.row.isLt
  exact ⟨by simp, by simp; omega⟩

/-- Every globals record a dialog state carries has `row` in [0,3]. -/
theorem row_range_of_poll (d : Dialog) (g : Globals) (h0 : 0 ≤ g.row) (h3 : g.row ≤ 3)
    (hd : ∀ g', d.globals? = some g' → g'.row = (keypad_cycle g).row) :
    d.globals?.all (fun g' => decide (0 ≤ g'.row ∧ g'.row ≤ 3)) = true := by
  cases hg : d.globals? with
  | none => rfl
  | some g' =>
    have := keypad_cycle_row_range g h0 h3
    simp only [Option.all_some, decide_eq_true_eq]
    rw [hd g' hg]
    exact this

theorem celsius_poll_row (g : Globals) (count : Int) (t : String) (parsed : List String) :
    ∀ g', (celsius_poll g count t parsed).globals? = some g' → g'.row = (keypad_cycle g).row := by
  intro g' h
  unfold celsius_poll celsius_validate at h
  dsimp only at h
  split_ifs at h <;> first
    | (simp only [Dialog.globals?, Option.some.injEq] at h; rw [← h])
    | (split at h <;> (try split_ifs at h) <;>
        simp only [Dialog.globals?, Option.some.injEq, reduceCtorEq] at h <;> rw [← h])

theorem celsius_run_row (ps : List Press) :
    ∀ d : Dialog, d.globals?.all (fun g' => decide (0 ≤ g'.row ∧ g'.row ≤ 3)) = true →
      (celsius_run d ps).globals?.all (fun g' => decide (0 ≤ g'.row ∧ g'.row ≤ 3)) = true := by
  induction ps with
  | nil =>
    intro d h
    cases d <;> exact h
  | cons p ps ih =>
    intro d h
    cases d with
    | polling g count t parsed =>
      exact ih _ (row_range_of_poll _ (p.fire g) (fire_row_range p g).1 (fire_row_range p g).2
        (celsius_poll_row _ _ _ _))
    | returned g parsed => exact h
    | threw parsed => exact h

theorem humidity_poll_row (g : Globals) (count : Int) (t : String) (parsed : List String) :
    ∀ g', (humidity_poll g count t parsed).globals? = some g' → g'.row = (keypad_cycle g).row := by
  intro g' h
  unfold humidity_poll humidity_validate at h
  dsimp only at h
  split_ifs at h <;> first
    | (simp only [Dialog.globals?, Option.some.injEq] at h; rw [← h])
    | (split at h <;> (try split_ifs at h) <;>
        simp only [Dialog.globals?, Option.some.injEq, reduceCtorEq] at h <;> rw [← h])

theorem humidity_run_row (ps : List Press) :
    ∀ d : Dialog, d.globals?.all (fun g' => decide (0 ≤ g'.row ∧ g'.row ≤ 3)) = true →
      (humidity_run d ps).globals?.all (fun g' => decide (0 ≤ g'.row ∧ g'.row ≤ 3)) = true := by
  induction ps with
  | nil =>
    intro d h
    cases d <;> exact h
  | cons p ps ih =>
    intro d h
    cases d with
    | polling g count t parsed =>
      exact ih _ (row_range_of_poll _ (p.fire g) (fire_row_range p g).1 (fire_row_range p g).2
        (humidity_poll_row _ _ _ _))
    | returned g parsed => exact h
    | threw parsed => exact h

theorem fahrenheit_poll_row (g : Globals) (count : Int) (t : String) (parsed : List String) :
    ∀ g', (fahrenheit_poll g count t parsed).globals? = some g' → g'.row = (keypad_cycle g).row := by
  intro g' h
  unfold fahrenheit_poll fahrenheit_validate at h
  dsimp only at h
  split_ifs at h <;> first
    | (simp only [Dialog.globals?, Option.some.injEq] at h; rw [← h])
    | (split at h <;> (try split_ifs at h) <;>
        simp only [Dialog.globals?, Option.some.injEq, reduceCtorEq] at h <;> rw [← h])

theorem fahrenheit_run_row (ps : List Press) :
    ∀ d : Dialog, d.globals?.all (fun g' => decide (0 ≤ g'.row ∧ g'.row ≤ 3)) = true →
      (fahrenheit_run d ps).globals?.all (fun g' => decide (0 ≤ g'.row ∧ g'.row ≤ 3)) = true := by
  induction ps with
  | nil =>
    intro d h
    cases d <;> exact h
  | cons p ps ih =>
    intro d h
    cases d with
    | polling g count t parsed =>
      exact ih _ (row_range_of_poll _ (p.fire g) (fire_row_range p g).1 (fire_row_range p g).2
        (fahrenheit_poll_row _ _ _ _))
    | returned g parsed => exact h
    | threw parsed => exact h

/-- C11: `row` is a cyclic counter confined to [0,3]: from every row index in [0,3]
`keypad_cycle` leaves `row` at (row + 1) mod 4, again in [0,3], and four consecutive calls bring
the original value back; no interrupt handler and neither periodic task writes `row`, and the
entry procedures, which change it through `keypad_cycle` only, keep it in [0,3]. -/
theorem C11_row_cyclic_counter (g : Globals) (r : Fin 4) (c : Column) (ps : List Press)
    (rd : Reading) :
    (keypad_cycle { g with row := (r : Nat) }).row = (((r : Nat) + 1) % 4 : Nat) ∧
    (0 ≤ (keypad_cycle { g with row := (r : Nat) }).row ∧
      (keypad_cycle { g with row := (r : Nat) }).row ≤ 3) ∧
    (keypad_cycle (keypad_cycle (keypad_cycle (keypad_cycle
      { g with row := (r : Nat) })))).row = (r : Nat) ∧
    (c.rise g).row = g.row ∧
    (print_sensor_data g rd).1.row = g.row ∧
    ((set_celsius_threshold { g with row := (r : Nat) } ps).globals?.all
        (fun g' => decide (0 ≤ g'.row ∧ g'.row ≤ 3)) = true ∧
      (set_humidity_threshold { g with row := (r : Nat) } ps).globals?.all
        (fun g' => decide (0 ≤ g'.row ∧ g'.row ≤ 3)) = true ∧
      (set_fahrenheit_threshold { g with row := (r : Nat) } ps).globals?.all
        (fun g' => decide (0 ≤ g'.row ∧ g'.row ≤ 3)) = true) := by
  have hr0 : (0 : Int) ≤ ((r : Nat) : Int) := Int.natCast_nonneg _
  have hr3 : ((r : Nat) : Int) ≤ 3 := by
    have := r.isLt
    omega
  refine ⟨?_, ?_, ?_, rise_row c g, ?_, ?_, ?_, ?_⟩
  · rw [keypad_cycle_row]
    obtain ⟨v, hv⟩ := r
    interval_cases v <;> rfl
  · exact keypad_cycle_row_range _ hr0 hr3
  · simp only [keypad_cycle_row]
    obtain ⟨v, hv⟩ := r
    interval_cases v <;> simp only [Fin.val_mk] <;> decide
  · unfold print_sensor_data
    dsimp only
    split_ifs <;> rfl
  · unfold set_celsius_threshold
    split_ifs
    · simpa [Dialog.globals?] using And.intro hr0 hr3
    · exact celsius_run_row ps _
        (row_range_of_poll _ { g with row := (r : Nat), temperature_threshold := 100 } hr0 hr3
          (celsius_poll_row _ _ _ _))
  · exact humidity_run_row ps _
      (row_range_of_poll _ { g with row := (r : Nat), humidity_threshold := 0 } hr0 hr3
        (humidity_poll_row _ _ _ _))
  · unfold set_fahrenheit_threshold
    split_ifs
    · simpa [Dialog.globals?] using And.intro hr0 hr3
    · exact fahrenheit_run_row ps _
        (row_range_of_poll _ { g with row := (r : Nat), temperature_threshold := 123 } hr0 hr3
          (fahrenheit_poll_row _ _ _ _))

/-! ### Display-refresh task -/

theorem smoothing_test_holds (x c : ℚ) : x ≤ c + 2 ∨ x ≥ c - 2 := by
  by_cases h : x ≤ c + 2
  · exact Or.inl h
  · right
    linarith

theorem print_sensor_data_eq (g : Globals) (r : Reading) :
    print_sensor_data g r =
      ({ g with
          current_fahrenheit := r.fahrenheit, current_celsius := r.celsius,
          current_humidity := r.humidity,
          to_print := "Humidity: " ++ toString r.humidity ++ "%" },
        [.mutex_lock, .sensor_read, .lcd_clear,
          .lcd_print
            (if g.flag_celsius then "Temp.: " ++ toString r.celsius ++ degree ++ "C"
             else "Temp.: " ++ to_string_float r.fahrenheit ++ degree ++ "F"),
          .lcd_setCursor 0 1, .lcd_print ("Humidity: " ++ toString r.humidity ++ "%"),
          .mutex_unlock, .watchdog_kick]) := by
  unfold print_sensor_data
  simp only [if_pos (smoothing_test_holds r.fahrenheit g.current_fahrenheit),
    if_pos (show celsius_smoothing_test g.current_celsius r.celsius from
      smoothing_test_holds _ _)]
  cases g.flag_celsius <;> rfl

/-- C12: for every monitor state and every sensor reading, a second run of
`print_sensor_data` on the same reading produces the same trace as the first, with the display
operations clear, temperature line in the selected unit, cursor to (0,1), humidity line, and
leaves the globals as the first run left them. -/
theorem C12_display_refresh_idempotent (g : Globals) (r : Reading) :
    print_sensor_data (print_sensor_data g r).1 r = print_sensor_data g r ∧
    (print_sensor_data g r).2.filter Effect.is_display =
      [.lcd_clear,
        .lcd_print
          (if g.flag_celsius then "Temp.: " ++ toString r.celsius ++ degree ++ "C"
           else "Temp.: " ++ to_string_float r.fahrenheit ++ degree ++ "F"),
        .lcd_setCursor 0 1, .lcd_print ("Humidity: " ++ toString r.humidity ++ "%")] := by
  constructor
  · rw [print_sensor_data_eq g r, print_sensor_data_eq]
  · rw [print_sensor_data_eq]
    rfl

/-- C15: the smoothing test of the display-refresh task holds for every previous value of
`current_celsius` and every new reading, so `print_sensor_data` always stores the new reading
in `current_celsius`. -/
theorem C15_smoothing_never_rejects (g : Globals) (r : Reading) (current temp_c : Int) :
    celsius_smoothing_test current temp_c ∧
    (print_sensor_data g r).1.current_celsius = r.celsius := by
  refine ⟨smoothing_test_holds _ _, ?_⟩
  rw [print_sensor_data_eq]

theorem trace_ends_with (l : List Effect) (a b : Effect) :
    (l ++ [a, b]).getLast? = some b ∧ (l ++ [a, b]).dropLast.getLast? = some a := by
  have h : l ++ [a, b] = (l ++ [a]) ++ [b] := by simp
  rw [h, List.getLast?_concat, List.dropLast_concat, List.getLast?_concat]
  exact ⟨rfl, rfl⟩

/-- C13: both periodic tasks kick the watchdog on every run: in the trace of
`print_sensor_data` and of `check_sensor_data` the last effect is the watchdog kick, the effect
before it is `mutex.unlock`, and the kick is the only effect issued while the mutex is not
held. -/
theorem C13_watchdog_kicked_last (g : Globals) (r : Reading) :
    ((print_sensor_data g r).2.getLast? = some .watchdog_kick ∧
      (print_sensor_data g r).2.dropLast.getLast? = some .mutex_unlock ∧
      while_unlocked false (print_sensor_data g r).2 = [.watchdog_kick]) ∧
    ((check_sensor_data g).getLast? = some .watchdog_kick ∧
      (check_sensor_data g).dropLast.getLast? = some .mutex_unlock ∧
      while_unlocked false (check_sensor_data g) = [.watchdog_kick]) := by
  constructor
  · rw [print_sensor_data_eq]
    exact ⟨rfl, rfl, rfl⟩
  · rw [check_sensor_data_eq]
    exact ⟨(trace_ends_with _ _ _).1, (trace_ends_with _ _ _).2,
      (critical_section_frame _ (alarm_body_free_of_mutex g)).2⟩

/-! ### Row index and powered row line -/

theorem keypad_cycle_eq_settle (g : Globals) :
    keypad_cycle g
      = { keypad_cycle_settle g with row := Int.tmod ((keypad_cycle_settle g).row + 1) 4 } := by
  unfold keypad_cycle keypad_cycle_settle
  split_ifs <;> rfl

theorem settle_row (g : Globals) : (keypad_cycle_settle g).row = g.row := by
  unfold keypad_cycle_settle
  split_ifs <;> rfl

theorem settle_odr (g : Globals) : (keypad_cycle g).odr = (keypad_cycle_settle g).odr := by
  rw [keypad_cycle_eq_settle]

theorem active_line_after_cycle (g : Globals) (r : Fin 4) :
    active_row_bits (keypad_cycle { g with row := (r : Nat) }).odr = [row_line r] := by
  fin_cases r
  · rw [row_bits_of_masked _ 0x40 ?_]
    · decide
    · simpa [keypad_cycle] using drive_row_masked g.odr 0x40 0x38 (by decide) (by decide)
  · rw [row_bits_of_masked _ 0x20 ?_]
    · decide
    · simpa [keypad_cycle] using drive_row_masked g.odr 0x20 0x58 (by decide) (by decide)
  · rw [row_bits_of_masked _ 0x10 ?_]
    · decide
    · simpa [keypad_cycle] using drive_row_masked g.odr 0x10 0x68 (by decide) (by decide)
  · rw [row_bits_of_masked _ 0x8 ?_]
    · decide
    · simpa [keypad_cycle] using drive_row_masked g.odr 0x8 0x70 (by decide) (by decide)

theorem rise_key (g : Globals) (r : Fin 4) (c : Column) (h : g.row = (r : Nat)) :
    (c.rise g).key = keypad_table r c := by
  fin_cases r <;> cases c <;>
    simp [Column.rise, col1_isr_handler, col2_isr_handler, col3_isr_handler,
      col4_isr_handler, keypad_table, h]

/-- C14 as stated fails: after `keypad_cycle` is called with `row` = 0 the active row line is
PD_6, the line of row index 0, while `row` is 1; no row index names the active line. -/
theorem C14_row_index_ahead_of_active_line :
    ¬ (∃ k : Fin 4, (keypad_cycle (Globals.boot 0)).row = ((k : Nat) : Int) ∧
        active_row_bits (keypad_cycle (Globals.boot 0)).odr = [row_line k]) ∧
    (keypad_cycle (Globals.boot 0)).row = 1 ∧
    active_row_bits (keypad_cycle (Globals.boot 0)).odr = [row_line 0] ∧
    (Column.col1.rise (keypad_cycle (Globals.boot 0))).key = "4" := by
  decide

/-- C14 amended: `row` names the active row line during the settle delay inside
`keypad_cycle`, not after the call. From a row index r in [0,3], once the two register writes
are done the single active line is the line of r and `row` is still r, so a column edge
handled then decodes to the key of the powered row; when the call has returned the active line
is still the line of r but `row` is (r + 1) mod 4, so a column edge handled then decodes to
the key of the next row. -/
theorem C14_row_index_names_line_during_settle (g : Globals) (r : Fin 4) (c : Column) :
    ((keypad_cycle_settle { g with row := (r : Nat) }).row = (r : Nat) ∧
      active_row_bits (keypad_cycle_settle { g with row := (r : Nat) }).odr = [row_line r] ∧
      (c.rise (keypad_cycle_settle { g with row := (r : Nat) })).key = keypad_table r c) ∧
    ((keypad_cycle { g with row := (r : Nat) }).row = ((r + 1 : Fin 4) : Nat) ∧
      active_row_bits (keypad_cycle { g with row := (r : Nat) }).odr = [row_line r] ∧
      (c.rise (keypad_cycle { g with row := (r : Nat) })).key = keypad_table (r + 1) c) ∧
    keypad_cycle { g with row := (r : Nat) }
      = { keypad_cycle_settle { g with row := (r : Nat) } with
          row := Int.tmod ((keypad_cycle_settle { g with row := (r : Nat) }).row + 1) 4 } := by
  have hrow : (keypad_cycle { g with row := (r : Nat) }).row = ((r + 1 : Fin 4) : Nat) := by
    rw [keypad_cycle_row]
    fin_cases r <;> rfl
  refine ⟨⟨settle_row _, ?_, rise_key _ r c (settle_row _)⟩,
    ⟨hrow, active_line_after_cycle g r, rise_key _ (r + 1) c hrow⟩, keypad_cycle_eq_settle _⟩
  rw [← settle_odr]
  exact active_line_after_cycle g r

/-! ### Conversions cannot fail -/

theorem two_digits_convert (d1 d2 : Nat) (h1 : d1 < 10) (h2 : d2 < 10) :
    (is_two_digits (digit_string [d1] ++ digit_string [d2])
      && (stoi (digit_string [d1] ++ digit_string [d2])).isSome) = true := by
  interval_cases d1 <;> interval_cases d2 <;> rfl

theorem celsius_poll_two_digit (g : Globals) (count : Int) (t : String)
    (parsed : List String) (p : Press) (h : (Dialog.polling g count t parsed).TwoDigitInv) :
    (celsius_poll (p.fire g) count t parsed).TwoDigitInv := by
  obtain ⟨hp, ds, hl, hd, rfl, rfl⟩ := h
  rw [celsius_step]
  cases hk : digit_of_key p.symbol with
  | none =>
    simp only [Option.isSome_none, Bool.false_eq_true, if_false]
    exact ⟨hp, ds, hl, hd, rfl, rfl⟩
  | some d =>
    obtain ⟨hs, hd10⟩ := digit_of_key_spec _ _ hk
    simp only [Option.isSome_some, if_true]
    rw [hs]
    match ds, hl, hd with
    | [], _, _ =>
      simp only [celsius_validate, List.length_nil, Nat.cast_zero, zero_add]
      rw [if_pos (by norm_num)]
      exact ⟨hp, [d], by simp, by simpa using hd10, by simp, by simp [digit_string]⟩
    | [d1], _, hd =>
      have h1 : d1 < 10 := hd d1 (by simp)
      have hp2 : ∀ s ∈ parsed ++ [digit_string [d1] ++ digit_string [d]],
          ∃ a b, a < 10 ∧ b < 10 ∧ s = digit_string [a] ++ digit_string [b] := by
        intro s hs
        rw [List.mem_append, List.mem_singleton] at hs
        rcases hs with hs | rfl
        · exact hp s hs
        · exact ⟨d1, d, h1, hd10, rfl⟩
      simp only [celsius_validate, List.length_singleton, Nat.cast_one]
      rw [if_neg (by norm_num), stoi_two_digits d1 d h1 hd10]
      dsimp only
      split_ifs
      · exact ⟨hp2, [], by simp, by simp, by simp, rfl⟩
      · exact hp2

theorem celsius_run_two_digit (ps : List Press) :
    ∀ d : Dialog, d.TwoDigitInv → (celsius_run d ps).TwoDigitInv := by
  induction ps with
  | nil =>
    intro d h
    cases d <;> exact h
  | cons p ps ih =>
    intro d h
    cases d with
    | polling g count t parsed => exact ih _ (celsius_poll_two_digit g count t parsed p h)
    | returned g parsed => exact h
    | threw parsed => exact h

theorem humidity_poll_two_digit (g : Globals) (count : Int) (t : String)
    (parsed : List String) (p : Press) (h : (Dialog.polling g count t parsed).TwoDigitInv) :
    (humidity_poll (p.fire g) count t parsed).TwoDigitInv := by
  obtain ⟨hp, ds, hl, hd, rfl, rfl⟩ := h
  rw [humidity_step]
  cases hk : digit_of_key p.symbol with
  | none =>
    simp only [Option.isSome_none, Bool.false_eq_true, if_false]
    exact ⟨hp, ds, hl, hd, rfl, rfl⟩
  | some d =>
    obtain ⟨hs, hd10⟩ := digit_of_key_spec _ _ hk
    simp only [Option.isSome_some, if_true]
    rw [hs]
    match ds, hl, hd with
    | [], _, _ =>
      simp only [humidity_validate, List.length_nil, Nat.cast_zero, zero_add]
      rw [if_pos (by norm_num)]
      exact ⟨hp, [d], by simp, by simpa using hd10, by simp, by simp [digit_string]⟩
    | [d1], _, hd =>
      have h1 : d1 < 10 := hd d1 (by simp)
      have hp2 : ∀ s ∈ parsed ++ [digit_string [d1] ++ digit_string [d]],
          ∃ a b, a < 10 ∧ b < 10 ∧ s = digit_string [a] ++ digit_string [b] := by
        intro s hs
        rw [List.mem_append, List.mem_singleton] at hs
        rcases hs with hs | rfl
        · exact hp s hs
        · exact ⟨d1, d, h1, hd10, rfl⟩
      simp only [humidity_validate, List.length_singleton, Nat.cast_one]
      rw [if_neg (by norm_num), stoi_two_digits d1 d h1 hd10]
      dsimp only
      split_ifs
      · exact ⟨hp2, [], by simp, by simp, by simp, rfl⟩
      · exact hp2

theorem humidity_run_two_digit (ps : List Press) :
    ∀ d : Dialog, d.TwoDigitInv → (humidity_run d ps).TwoDigitInv := by
  induction ps with
  | nil =>
    intro d h
    cases d <;> exact h
  | cons p ps ih =>
    intro d h
    cases d with
    | polling g count t parsed => exact ih _ (humidity_poll_two_digit g count t parsed p h)
    | returned g parsed => exact h
    | threw parsed => exact h

theorem two_digit_inv_conclusion (d : Dialog) (h : d.TwoDigitInv) :
    d.has_thrown = false ∧
    d.parsed.all (fun s => is_two_digits s && (stoi s).isSome) = true := by
  have key : ∀ parsed : List String,
      (∀ s ∈ parsed, ∃ d1 d2, d1 < 10 ∧ d2 < 10 ∧ s = digit_string [d1] ++ digit_string [d2]) →
      parsed.all (fun s => is_two_digits s && (stoi s).isSome) = true := by
    intro parsed hp
    rw [List.all_eq_true]
    intro s hs
    obtain ⟨d1, d2, h1, h2, rfl⟩ := hp s hs
    exact two_digits_convert d1 d2 h1 h2
  cases d with
  | polling g count t parsed => exact ⟨rfl, key parsed h.1⟩
  | returned g parsed => exact ⟨rfl, key parsed h⟩
  | threw parsed => exact absurd h id

theorem set_celsius_threshold_two_digit (g : Globals) (ps : List Press)
    (hk : g.is_key_pressed = false) : (set_celsius_threshold g ps).TwoDigitInv := by
  unfold set_celsius_threshold
  split_ifs
  · intro s hs
    simp at hs
  · dsimp only
    rw [celsius_idle { g with temperature_threshold := 100 } 0 "" [] hk]
    apply celsius_run_two_digit
    exact ⟨by simp, [], by simp, by simp, by simp, rfl⟩

theorem set_humidity_threshold_two_digit (g : Globals) (ps : List Press)
    (hk : g.is_key_pressed = false) : (set_humidity_threshold g ps).TwoDigitInv := by
  unfold set_humidity_threshold
  dsimp only
  rw [humidity_idle { g with humidity_threshold := 0 } 0 "" [] hk]
  apply humidity_run_two_digit
  exact ⟨by simp, [], by simp, by simp, by simp, rfl⟩


theorem points_of_digits (l : List Char) (h : ∀ ch ∈ l, ch.isDigit = true) :
    l.count '.' = 0 :=
  List.count_eq_zero.2 (fun hm => absurd (h _ hm) (by decide))

theorem stof_head_digit (s : String) (c : Char) (t : List Char) (hd : s.data = c :: t)
    (hc : c.isDigit = true) : (stof s).isSome = true := by
  obtain ⟨h1, h2, h3⟩ := numeral_char c (Or.inl hc)
  unfold stof
  simp only [hd, List.dropWhile_cons, h1, Bool.false_eq_true, if_false, h2, h3,
    List.takeWhile_cons, hc, if_true]
  rw [if_neg (by simp)]
  rfl

theorem stof_point_digit (s : String) (c : Char) (t : List Char)
    (hd : s.data = '.' :: c :: t) (hc : c.isDigit = true) : (stof s).isSome = true := by
  unfold stof
  have h1 : isspace '.' = false := by decide
  have h2 : Char.isDigit '.' = false := by decide
  have h3 : ('.' : Char) ≠ '-' := by decide
  have h4 : ('.' : Char) ≠ '+' := by decide
  simp only [hd, List.dropWhile_cons, h1, h2, h3, h4, Bool.false_eq_true, if_false,
    List.takeWhile_cons, hc, if_true]
  rw [if_neg (by simp)]
  rfl

theorem numeral_of_digits (s : String) (h : ∀ ch ∈ s.data, ch.isDigit = true)
    (hne : s.data ≠ []) :
    (is_numeral s = true ∧ (stof s).isSome = true) ∧ points s = 0 := by
  cases hd : s.data with
  | nil => exact absurd hd hne
  | cons c t =>
    have hc : c.isDigit = true := h c (by simp [hd])
    refine ⟨⟨?_, stof_head_digit s c t hd hc⟩, ?_⟩
    · simp only [is_numeral, Bool.and_eq_true, List.all_eq_true, List.any_eq_true,
        Bool.or_eq_true]
      exact ⟨fun ch hm => Or.inl (h ch hm), c, by simp [hd], hc⟩
    · exact points_of_digits _ h

theorem numeral_of_decimal (s : String) (pre post : List Char)
    (hd : s.data = pre ++ '.' :: post) (hpre : ∀ ch ∈ pre, ch.isDigit = true)
    (hpost : ∀ ch ∈ post, ch.isDigit = true) (hne : post ≠ []) :
    (is_numeral s = true ∧ (stof s).isSome = true) ∧ points s = 1 := by
  obtain ⟨c, t, rfl⟩ := List.exists_cons_of_ne_nil hne
  have hc : c.isDigit = true := hpost c (by simp)
  refine ⟨⟨?_, ?_⟩, ?_⟩
  · simp only [is_numeral, Bool.and_eq_true, List.all_eq_true, List.any_eq_true,
      Bool.or_eq_true, hd]
    refine ⟨?_, c, by simp, hc⟩
    intro ch hm
    rw [List.mem_append, List.mem_cons] at hm
    rcases hm with hm | rfl | hm
    · exact Or.inl (hpre ch hm)
    · exact Or.inr rfl
    · exact Or.inl (hpost ch hm)
  · cases pre with
    | nil => exact stof_point_digit s c t hd hc
    | cons a pre => exact stof_head_digit s a _ hd (hpre a (by simp))
  · simp only [points, hd, List.count_append, List.count_cons_self,
      points_of_digits pre hpre, points_of_digits (c :: t) hpost]

theorem symbol_digit (p : Press) (h : (digit_of_key p.symbol).isSome = true) :
    ∃ ch : Char, p.symbol.data = [ch] ∧ ch.isDigit = true := by
  obtain ⟨r, c⟩ := p
  fin_cases r <;> cases c <;> first | exact absurd h (by decide) | exact ⟨_, rfl, rfl⟩

theorem total_points_concat (parsed : List String) (s : String) :
    total_points (parsed ++ [s]) = total_points parsed + points s := by
  simp [total_points]


theorem fahrenheit_validate_numeral (g : Globals) (count : Int) (acc : String)
    (parsed : List String)
    (hp : ∀ s ∈ parsed, is_numeral s = true ∧ (stof s).isSome = true)
    (hst : ((∀ ch ∈ acc.data, ch.isDigit = true) ∧ (acc.length : Int) = count ∧ count ≤ 5 ∧
          (total_points parsed = 0 ∨
            (total_points parsed = 1 ∧ g.flag_threshold = false ∧
              g.flag_decimal_point = false))) ∨
        (∃ pre post : List Char, acc.data = pre ++ '.' :: post ∧
          (∀ ch ∈ pre, ch.isDigit = true) ∧ (∀ ch ∈ post, ch.isDigit = true) ∧
          (post.length : Int) + 3 = count ∧ count ≤ 5 ∧ g.flag_threshold = false ∧
          g.flag_decimal_point = false ∧ total_points parsed = 0)) :
    (fahrenheit_validate g count acc parsed).NumeralInv := by
  unfold fahrenheit_validate
  by_cases hc : count < 5
  · rw [if_pos hc]
    refine ⟨hp, ?_⟩
    rcases hst with ⟨h1, h2, _, h4⟩ | ⟨pre, post, h1, h2, h3, h4, _, h6, h7, h8⟩
    · exact Or.inl ⟨h1, h2, hc, h4⟩
    · exact Or.inr ⟨pre, post, h1, h2, h3, h4, hc, h6, h7, h8⟩
  · rw [if_neg hc]
    have hnum : (is_numeral acc = true ∧ (stof acc).isSome = true) ∧
        (total_points (parsed ++ [acc]) = 0 ∨
          (total_points (parsed ++ [acc]) = 1 ∧ g.flag_threshold = false ∧
            g.flag_decimal_point = false)) := by
      rcases hst with ⟨h1, h2, h3, h4⟩ | ⟨pre, post, h1, h2, h3, h4, h5, h6, h7, h8⟩
      · have hne : acc.data ≠ [] := by
          intro h0
          have : acc.length = 0 := by
            show acc.data.length = 0
            rw [h0]
            rfl
          rw [this] at h2
          omega
        obtain ⟨hn, hpt⟩ := numeral_of_digits acc h1 hne
        refine ⟨hn, ?_⟩
        rw [total_points_concat, hpt, Nat.add_zero]
        exact h4
      · have hne : post ≠ [] := by
          intro h0
          rw [h0] at h4
          simp at h4
          omega
        obtain ⟨hn, hpt⟩ := numeral_of_decimal acc pre post h1 h2 h3 hne
        refine ⟨hn, Or.inr ⟨?_, h6, h7⟩⟩
        rw [total_points_concat, hpt, h8]
    obtain ⟨⟨hn1, hn2⟩, htot⟩ := hnum
    have hp2 : ∀ s ∈ parsed ++ [acc], is_numeral s = true ∧ (stof s).isSome = true := by
      intro s hs
      rw [List.mem_append, List.mem_singleton] at hs
      rcases hs with hs | rfl
      · exact hp s hs
      · exact ⟨hn1, hn2⟩
    obtain ⟨v, hv⟩ := Option.isSome_iff_exists.1 hn2
    rw [hv]
    dsimp only
    split_ifs
    · exact ⟨hp2, Or.inl ⟨by simp, rfl, by norm_num, htot⟩⟩
    · refine ⟨hp2, ?_⟩
      rcases htot with h | ⟨h, _, _⟩ <;> omega

theorem fahrenheit_poll_numeral (g : Globals) (count : Int) (t : String)
    (parsed : List String) (p : Press) (h : (Dialog.polling g count t parsed).NumeralInv) :
    (fahrenheit_poll (p.fire g) count t parsed).NumeralInv := by
  obtain ⟨hp, hst⟩ := h
  rw [fahrenheit_step]
  by_cases hd : (digit_of_key p.symbol).isSome = true
  · rw [if_pos hd]
    obtain ⟨ch, hsym, hch⟩ := symbol_digit p hd
    have hdata : (t ++ p.symbol).data = t.data ++ [ch] := by
      rw [String.data_append, hsym]
    have hlen : ((t ++ p.symbol).length : Int) = (t.length : Int) + 1 := by
      have : (t ++ p.symbol).length = t.length + 1 := by
        show (t ++ p.symbol).data.length = t.data.length + 1
        rw [hdata, List.length_append]
        rfl
      rw [this]
      push_cast
      rfl
    apply fahrenheit_validate_numeral _ _ _ _ hp
    rcases hst with ⟨h1, h2, h3, h4⟩ | ⟨pre, post, h1, h2, h3, h4, h5, h6, h7, h8⟩
    · left
      refine ⟨?_, by rw [hlen, h2], by omega, ?_⟩
      · intro c hc
        rw [hdata, List.mem_append, List.mem_singleton] at hc
        rcases hc with hc | rfl
        · exact h1 c hc
        · exact hch
      · rcases h4 with h4 | ⟨h4, h5, h6⟩
        · exact Or.inl h4
        · refine Or.inr ⟨h4, ?_, ?_⟩
          · exact (latched_threshold_flag p g).trans h5
          · exact (latched_decimal_point p g).trans (by simp [h5, h6])
    · right
      refine ⟨pre, post ++ [ch], by rw [hdata, h1]; simp, h2, ?_, ?_, by omega, ?_, ?_, h8⟩
      · intro c hc
        rw [List.mem_append, List.mem_singleton] at hc
        rcases hc with hc | rfl
        · exact h3 c hc
        · exact hch
      · rw [List.length_append]
        push_cast
        simp only [List.length_singleton, Nat.cast_one]
        omega
      · exact (latched_threshold_flag p g).trans h6
      · exact (latched_decimal_point p g).trans (by simp [h6, h7])
  · rw [if_neg hd]
    by_cases hstar : p = Press.star
    · rw [if_pos hstar]
      by_cases hf : (g.flag_decimal_point || g.flag_threshold) = true
      · rw [if_pos hf]
        apply fahrenheit_validate_numeral _ _ _ _ hp
        right
        have htot : total_points parsed = 0 := by
          rcases hst with ⟨_, _, _, h4⟩ | ⟨_, _, _, _, _, _, _, h6, h7, _⟩
          · rcases h4 with h4 | ⟨_, h5, h6⟩
            · exact h4
            · simp [h5, h6] at hf
          · simp [h6, h7] at hf
        have hdigits : ∀ c ∈ t.data, c.isDigit = true := by
          rcases hst with ⟨h1, _⟩ | ⟨_, _, _, _, _, _, _, h6, h7, _⟩
          · exact h1
          · simp [h6, h7] at hf
        exact ⟨t.data, [], by rw [String.data_append], hdigits, by simp, by simp,
          by norm_num, rfl, rfl, htot⟩
      · rw [if_neg hf]
        have hf1 : g.flag_decimal_point = false := by
          cases h : g.flag_decimal_point <;> simp_all
        have hf2 : g.flag_threshold = false := by
          cases h : g.flag_threshold <;> simp_all
        have hfth : (keypad_cycle (p.fire g)).flag_threshold = false :=
          (latched_threshold_flag p g).trans hf2
        have hfdp : (keypad_cycle (p.fire g)).flag_decimal_point = false :=
          (latched_decimal_point p g).trans (by simp [hf1, hf2])
        apply fahrenheit_validate_numeral _ _ _ _ hp
        rcases hst with ⟨h1, h2, h3, h4⟩ | ⟨pre, post, h1, h2, h3, h4, h5, h6, h7, h8⟩
        · left
          refine ⟨h1, h2, by omega, ?_⟩
          rcases h4 with h4 | ⟨h4, _, _⟩
          · exact Or.inl h4
          · exact Or.inr ⟨h4, hfth, hfdp⟩
        · right
          exact ⟨pre, post, h1, h2, h3, h4, by omega, hfth, hfdp, h8⟩
    · rw [if_neg hstar]
      have hfth : (keypad_cycle (p.fire g)).flag_threshold = g.flag_threshold :=
        latched_threshold_flag p g
      have hfdp : (keypad_cycle (p.fire g)).flag_decimal_point = g.flag_decimal_point :=
        (latched_decimal_point p g).trans (by simp [hstar])
      refine ⟨hp, ?_⟩
      rcases hst with ⟨h1, h2, h3, h4⟩ | ⟨pre, post, h1, h2, h3, h4, h5, h6, h7, h8⟩
      · left
        refine ⟨h1, h2, h3, ?_⟩
        rcases h4 with h4 | ⟨h4, h5, h6⟩
        · exact Or.inl h4
        · exact Or.inr ⟨h4, hfth.trans h5, hfdp.trans h6⟩
      · right
        exact ⟨pre, post, h1, h2, h3, h4, h5, hfth.trans h6, hfdp.trans h7, h8⟩

theorem fahrenheit_run_numeral (ps : List Press) :
    ∀ d : Dialog, d.NumeralInv → (fahrenheit_run d ps).NumeralInv := by
  induction ps with
  | nil =>
    intro d h
    cases d <;> exact h
  | cons p ps ih =>
    intro d h
    cases d with
    | polling g count t parsed => exact ih _ (fahrenheit_poll_numeral g count t parsed p h)
    | returned g parsed => exact h
    | threw parsed => exact h

theorem set_fahrenheit_threshold_numeral (g : Globals) (ps : List Press)
    (hk : g.is_key_pressed = false) : (set_fahrenheit_threshold g ps).NumeralInv := by
  unfold set_fahrenheit_threshold
  split_ifs
  · exact ⟨by simp, by simp [total_points]⟩
  · dsimp only
    rw [fahrenheit_idle { g with temperature_threshold := 123 } 0 "" [] hk]
    apply fahrenheit_run_numeral
    exact ⟨by simp, Or.inl ⟨by simp, rfl, by norm_num, Or.inl rfl⟩⟩

theorem numeral_inv_conclusion (d : Dialog) (h : d.NumeralInv) :
    d.has_thrown = false ∧
    d.parsed.all (fun s => is_numeral s && (stof s).isSome) = true ∧
    d.points_total ≤ 1 := by
  have key : ∀ parsed : List String,
      (∀ s ∈ parsed, is_numeral s = true ∧ (stof s).isSome = true) →
      parsed.all (fun s => is_numeral s && (stof s).isSome) = true := by
    intro parsed hp
    rw [List.all_eq_true]
    intro s hs
    rw [Bool.and_eq_true]
    exact hp s hs
  cases d with
  | polling g count t parsed =>
    refine ⟨rfl, key parsed h.1, ?_⟩
    show total_points parsed + points t ≤ 1
    rcases h.2 with ⟨h1, _, _, h4⟩ | ⟨pre, post, h1, h2, h3, _, _, _, _, h8⟩
    · have : points t = 0 := points_of_digits _ h1
      rcases h4 with h4 | ⟨h4, _, _⟩ <;> omega
    · have : points t = 1 := by
        simp only [points, h1, List.count_append, List.count_cons_self,
          points_of_digits pre h2, points_of_digits post h3]
      omega
  | returned g parsed => exact ⟨rfl, key parsed h.1, h.2⟩
  | threw parsed => exact absurd h id


/-- C16: when no key is pending at entry and every key press carries one of the 16 key
symbols, no conversion fails. In `set_celsius_threshold` and `set_humidity_threshold` every
string handed to `stoi` is exactly two digits and `stoi` converts it. In
`set_fahrenheit_threshold` every string handed to `stof` holds digits and points only, with at
least one digit, `stof` converts it, and at most one point is accepted over the whole
dialog. -/
theorem C16_conversions_cannot_fail (g : Globals) (ps : List Press)
    (hk : g.is_key_pressed = false) :
    ((set_celsius_threshold g ps).has_thrown = false ∧
      (set_celsius_threshold g ps).parsed.all
        (fun s => is_two_digits s && (stoi s).isSome) = true) ∧
    ((set_humidity_threshold g ps).has_thrown = false ∧
      (set_humidity_threshold g ps).parsed.all
        (fun s => is_two_digits s && (stoi s).isSome) = true) ∧
    ((set_fahrenheit_threshold g ps).has_thrown = false ∧
      (set_fahrenheit_threshold g ps).parsed.all
        (fun s => is_numeral s && (stof s).isSome) = true ∧
      (set_fahrenheit_threshold g ps).points_total ≤ 1) :=
  ⟨two_digit_inv_conclusion _ (set_celsius_threshold_two_digit g ps hk),
    two_digit_inv_conclusion _ (set_humidity_threshold_two_digit g ps hk),
    numeral_inv_conclusion _ (set_fahrenheit_threshold_numeral g ps hk)⟩

/-- C16 at concrete inputs: the Celsius dialog on the keys 7 5 4 5 parses "75" and "45"; the
Fahrenheit dialog on the keys 9 9 9 * 9 9 and then 0 * 0 1 * 2 2 parses "999.99" and "00122",
with one point in all. -/
theorem C16_conversions_cannot_fail_witness :
    (Globals.unitC.is_key_pressed = false ∧
      (set_celsius_threshold Globals.unitC
        [Press.digit 7, Press.digit 5, Press.digit 4, Press.digit 5]).parsed = ["75", "45"] ∧
      ((set_celsius_threshold Globals.unitC
          [Press.digit 7, Press.digit 5, Press.digit 4, Press.digit 5]).has_thrown = false ∧
        (set_celsius_threshold Globals.unitC
          [Press.digit 7, Press.digit 5, Press.digit 4, Press.digit 5]).parsed.all
            (fun s => is_two_digits s && (stoi s).isSome) = true)) ∧
    (Globals.unitB.is_key_pressed = false ∧
      (set_fahrenheit_threshold Globals.unitB
        [Press.digit 9, Press.digit 9, Press.digit 9, Press.star, Press.digit 9, Press.digit 9,
          Press.digit 0, Press.star, Press.digit 0, Press.digit 1, Press.star, Press.digit 2,
          Press.digit 2]).parsed = ["999.99", "00122"] ∧
      ((set_fahrenheit_threshold Globals.unitB
          [Press.digit 9, Press.digit 9, Press.digit 9, Press.star, Press.digit 9, Press.digit 9,
            Press.digit 0, Press.star, Press.digit 0, Press.digit 1, Press.star, Press.digit 2,
            Press.digit 2]).has_thrown = false ∧
        (set_fahrenheit_threshold Globals.unitB
          [Press.digit 9, Press.digit 9, Press.digit 9, Press.star, Press.digit 9, Press.digit 9,
            Press.digit 0, Press.star, Press.digit 0, Press.digit 1, Press.star, Press.digit 2,
            Press.digit 2]).parsed.all (fun s => is_numeral s && (stof s).isSome) = true ∧
        (set_fahrenheit_threshold Globals.unitB
          [Press.digit 9, Press.digit 9, Press.digit 9, Press.star, Press.digit 9, Press.digit 9,
            Press.digit 0, Press.star, Press.digit 0, Press.digit 1, Press.star, Press.digit 2,
            Press.digit 2]).points_total ≤ 1)) :=
  ⟨⟨rfl, by decide,
      (C16_conversions_cannot_fail Globals.unitC
        [Press.digit 7, Press.digit 5, Press.digit 4, Press.digit 5] rfl).1⟩,
    ⟨rfl, by decide,
      (C16_conversions_cannot_fail Globals.unitB
        [Press.digit 9, Press.digit 9, Press.digit 9, Press.star, Press.digit 9, Press.digit 9,
          Press.digit 0, Press.star, Press.digit 0, Press.digit 1, Press.star, Press.digit 2,
          Press.digit 2] rfl).2.2⟩⟩

end FireAlarm
